import Mathlib

/-!
Verification of the ESTA-Logic kernel core (esta-kernel) against its
specification. The Rust source is shallowly embedded: pure functions become
Lean functions, stateful components become explicit state-passing functions,
u64/u32 arithmetic is `Nat` with explicit `% 2^w` where overflow matters, the
wall clock is passed explicitly as a `now : Nat` (milliseconds) argument, and
fallible operations return `Except`. SHA-256 is implemented executably so that
token minting, audit hashing and checksum verification compute concretely.

Embedded components:
* `Sha` — executable SHA-256 plus hex/UTF-8 helpers (sha2 + hex crates).
* `Caps` — src/engine/esta-kernel/src/security/capabilities.rs.
* `Audit` — src/engine/esta-kernel/src/security/audit.rs.
* `Sup` — src/engine/esta-kernel/src/supervisor.rs.
* `Kern` — src/engine/esta-kernel/src/kernel.rs (launch pipeline; the wasm
  engine and Ed25519 verifier are external crates, modelled as oracle
  outcomes passed in at the call boundary).
-/

set_option maxRecDepth 4000000
set_option maxHeartbeats 4000000

namespace Sha

/-- Low 32-bit mask. -/
def mask32 : Nat := 4294967295

/-- 32-bit wrapping addition. -/
def add32 (a b : Nat) : Nat := (a + b) % 4294967296

def xor32 (a b : Nat) : Nat := a ^^^ b

def and32 (a b : Nat) : Nat := a &&& b

def not32 (a : Nat) : Nat := a ^^^ mask32

/-- 32-bit right rotation. -/
def rotr32 (r a : Nat) : Nat := ((a >>> r) ||| (a <<< (32 - r))) &&& mask32

def shr32 (r a : Nat) : Nat := a >>> r

def bigSigma0 (x : Nat) : Nat := xor32 (xor32 (rotr32 2 x) (rotr32 13 x)) (rotr32 22 x)
def bigSigma1 (x : Nat) : Nat := xor32 (xor32 (rotr32 6 x) (rotr32 11 x)) (rotr32 25 x)
def smallSigma0 (x : Nat) : Nat := xor32 (xor32 (rotr32 7 x) (rotr32 18 x)) (shr32 3 x)
def smallSigma1 (x : Nat) : Nat := xor32 (xor32 (rotr32 17 x) (rotr32 19 x)) (shr32 10 x)

def ch (x y z : Nat) : Nat := xor32 (and32 x y) (and32 (not32 x) z)
def maj (x y z : Nat) : Nat := xor32 (xor32 (and32 x y) (and32 x z)) (and32 y z)

/-- The 64 SHA-256 round constants. -/
def K : List Nat :=
  [1116352408, 1899447441, 3049323471, 3921009573, 961987163,
   1508970993, 2453635748, 2870763221, 3624381080, 310598401,
   607225278, 1426881987, 1925078388, 2162078206, 2614888103,
   3248222580, 3835390401, 4022224774, 264347078, 604807628,
   770255983, 1249150122, 1555081692, 1996064986, 2554220882,
   2821834349, 2952996808, 3210313671, 3336571891, 3584528711,
   113926993, 338241895, 666307205, 773529912, 1294757372,
   1396182291, 1695183700, 1986661051, 2177026350, 2456956037,
   2730485921, 2820302411, 3259730800, 3345764771, 3516065817,
   3600352804, 4094571909, 275423344, 430227734, 506948616,
   659060556, 883997877, 958139571, 1322822218, 1537002063,
   1747873779, 1955562222, 2024104815, 2227730452, 2361852424,
   2428436474, 2756734187, 3204031479, 3329325298]

/-- The SHA-256 initial hash state. -/
def H0 : List Nat :=
  [1779033703, 3144134277, 1013904242, 2773480762,
   1359893119, 2600822924, 528734635, 1541459225]

/-- Pad a byte message per SHA-256: append 0x80, zeros, and the 64-bit big-endian bit length. -/
def pad (msg : List Nat) : List Nat :=
  let len := msg.length
  let bitLen := len * 8
  let zeros := (55 + 64 - (len % 64)) % 64
  let lenBytes := (List.range 8).map (fun i => (bitLen >>> (8 * (7 - i))) % 256)
  msg ++ [0x80] ++ List.replicate zeros 0 ++ lenBytes

/-- Big-endian 32-bit words of a 64-byte block. -/
def blockWords (blk : List Nat) : List Nat :=
  (List.range 16).map (fun i =>
    (blk.getD (4 * i) 0) <<< 24 ||| (blk.getD (4 * i + 1) 0) <<< 16 |||
    (blk.getD (4 * i + 2) 0) <<< 8 ||| blk.getD (4 * i + 3) 0)

/-- Extend the 16 message words to the 64-word schedule. -/
def schedule (w16 : List Nat) : List Nat :=
  (List.range 48).foldl
    (fun w _ =>
      let n := w.length
      w ++ [add32 (add32 (smallSigma1 (w.getD (n - 2) 0)) (w.getD (n - 7) 0))
                  (add32 (smallSigma0 (w.getD (n - 15) 0)) (w.getD (n - 16) 0))])
    w16

/-- SHA-256 working registers a..h. -/
structure Regs where
  a : Nat
  b : Nat
  c : Nat
  d : Nat
  e : Nat
  f : Nat
  g : Nat
  h : Nat

/-- One SHA-256 compression round. -/
def round (w k : Nat) (r : Regs) : Regs :=
  let t1 := add32 (add32 (add32 r.h (bigSigma1 r.e)) (add32 (ch r.e r.f r.g) k)) w
  let t2 := add32 (bigSigma0 r.a) (maj r.a r.b r.c)
  ⟨add32 t1 t2, r.a, r.b, r.c, add32 r.d t1, r.e, r.f, r.g⟩

/-- Compress one 64-byte block into the running hash state. -/
def compress (hs : List Nat) (blk : List Nat) : List Nat :=
  let w := schedule (blockWords blk)
  let init : Regs := ⟨hs.getD 0 0, hs.getD 1 0, hs.getD 2 0, hs.getD 3 0,
                      hs.getD 4 0, hs.getD 5 0, hs.getD 6 0, hs.getD 7 0⟩
  let fin := (List.range 64).foldl (fun r t => round (w.getD t 0) (K.getD t 0) r) init
  [add32 (hs.getD 0 0) fin.a, add32 (hs.getD 1 0) fin.b, add32 (hs.getD 2 0) fin.c,
   add32 (hs.getD 3 0) fin.d, add32 (hs.getD 4 0) fin.e, add32 (hs.getD 5 0) fin.f,
   add32 (hs.getD 6 0) fin.g, add32 (hs.getD 7 0) fin.h]

/-- SHA-256 digest (32 bytes) of a byte message. -/
def sha256 (msg : List Nat) : List Nat :=
  let padded := pad msg
  let nblocks := padded.length / 64
  let final := (List.range nblocks).foldl
    (fun hs i => compress hs ((padded.drop (64 * i)).take 64)) H0
  final.flatMap (fun w => [(w >>> 24) % 256, (w >>> 16) % 256, (w >>> 8) % 256, w % 256])

/-- Lowercase hex digit. -/
def hexDigit (n : Nat) : Char :=
  if n < 10 then Char.ofNat (48 + n) else Char.ofNat (87 + n)

/-- Lowercase hex encoding of a byte list (the `hex` crate's `encode`). -/
def hexEncode (bs : List Nat) : String :=
  String.mk (bs.flatMap (fun b => [hexDigit (b / 16), hexDigit (b % 16)]))

/-- UTF-8 bytes of a string (Rust `str::as_bytes`). -/
def utf8Bytes (s : String) : List Nat :=
  s.data.flatMap (fun c =>
    let n := c.toNat
    if n < 0x80 then [n]
    else if n < 0x800 then [0xc0 ||| (n >>> 6), 0x80 ||| (n &&& 0x3f)]
    else if n < 0x10000 then
      [0xe0 ||| (n >>> 12), 0x80 ||| ((n >>> 6) &&& 0x3f), 0x80 ||| (n &&& 0x3f)]
    else
      [0xf0 ||| (n >>> 18), 0x80 ||| ((n >>> 12) &&& 0x3f),
       0x80 ||| ((n >>> 6) &&& 0x3f), 0x80 ||| (n &&& 0x3f)])

/-- Hex-encoded SHA-256 digest of a byte message. -/
def sha256hex (msg : List Nat) : String := hexEncode (sha256 msg)

/-- Little-endian 8-byte encoding of a u64 (Rust `u64::to_le_bytes`). -/
def leBytes8 (n : Nat) : List Nat := (List.range 8).map (fun i => (n >>> (8 * i)) % 256)

/-- Take the first `n` characters of a string (Rust `&s[..n]` on ASCII data;
implemented over the character list so it reduces in the kernel). -/
def strTake (s : String) (n : Nat) : String := String.mk (s.data.take n)

/-- Split a character list at every occurrence of `c` (Rust `str::split(c)`;
adjacent separators yield empty parts, as in Rust). -/
def splitChar (c : Char) : List Char → List (List Char)
  | [] => [[]]
  | x :: xs =>
    match splitChar c xs with
    | [] => [[]]
    | g :: gs => if x = c then [] :: g :: gs else (x :: g) :: gs

/-- Rust `str::split` producing strings. -/
def splitStr (c : Char) (s : String) : List String :=
  (splitChar c s.data).map String.mk

end Sha

/-- Decidable equality of `Except` results (both components decidable). -/
instance exceptDecEq {ε α : Type} [DecidableEq ε] [DecidableEq α] :
    DecidableEq (Except ε α) := fun x y =>
  match x, y with
  | .ok a, .ok b =>
    if h : a = b then isTrue (by rw [h]) else isFalse (fun hc => h (Except.ok.inj hc))
  | .error e, .error f =>
    if h : e = f then isTrue (by rw [h]) else isFalse (fun hc => h (Except.error.inj hc))
  | .ok _, .error _ => isFalse (fun hc => Except.noConfusion hc)
  | .error _, .ok _ => isFalse (fun hc => Except.noConfusion hc)

namespace Caps

open Sha

/-- Errors of capability operations (`CapabilityError` in capabilities.rs). -/
inductive CapabilityError where
  | NotFound (token : String)
  | Revoked
  | Expired
  | InsufficientRights (required actual : List String)
  | UsageLimitExceeded
  | DelegationNotAllowed
  | InvalidToken
  | Unauthorized
deriving DecidableEq, Repr

/-- Embeds `CapabilityId::new`: combine counter and timestamp, u64 arithmetic. -/
def CapabilityId.new (counter timestamp : Nat) : Nat :=
  ((timestamp <<< 32) % 18446744073709551616) ||| (counter &&& 0xFFFFFFFF)

/-- Rights grantable by a capability (`CapabilityRight`). -/
inductive CapabilityRight where
  | Read
  | Write
  | Delete
  | Execute
  | Create
  | List
  | Delegate
  | Revoke
  | AuditEmit
  | PersistenceRead
  | PersistenceWrite
  | Log
deriving DecidableEq, Repr

/-- Embeds `CapabilityRight::as_str`. -/
def CapabilityRight.as_str : CapabilityRight → String
  | .Read => "read"
  | .Write => "write"
  | .Delete => "delete"
  | .Execute => "execute"
  | .Create => "create"
  | .List => "list"
  | .Delegate => "delegate"
  | .Revoke => "revoke"
  | .AuditEmit => "audit_emit"
  | .PersistenceRead => "persistence_read"
  | .PersistenceWrite => "persistence_write"
  | .Log => "log"

/-- Resource types capabilities can reference (`ResourceType`). -/
inductive ResourceType where
  | Memory
  | Channel
  | Module
  | AuditLog
  | Config
  | Process
  | Custom (s : String)
deriving DecidableEq, Repr

/-- Validity constraints (`CapabilityValidity`). -/
structure CapabilityValidity where
  expires_at : Option Nat
  max_uses : Option Nat
  use_count : Nat
deriving DecidableEq, Repr

/-- Embeds `CapabilityValidity::default`. -/
def CapabilityValidity.default : CapabilityValidity :=
  { expires_at := none, max_uses := none, use_count := 0 }

/-- A capability (`Capability`). Rights are a `HashSet` in the source; a list
with membership stands in for the set (claims only use membership and the
set of elements). -/
structure Capability where
  id : Nat
  resource_type : ResourceType
  resource_id : String
  rights : List CapabilityRight
  owner : String
  parent_id : Option Nat
  validity : CapabilityValidity
  revoked : Bool
  created_at : Nat
deriving DecidableEq, Repr

/-- Embeds `Capability::has_right`. -/
def Capability.has_right (cap : Capability) (right : CapabilityRight) : Bool :=
  cap.rights.contains right

/-- Embeds `Capability::is_valid`. -/
def Capability.is_valid (cap : Capability) (now : Nat) : Except CapabilityError Unit :=
  if cap.revoked then .error .Revoked
  else if (match cap.validity.expires_at with
           | some expires_at => Nat.blt expires_at now
           | none => false) then .error .Expired
  else if (match cap.validity.max_uses with
           | some max_uses => Nat.ble max_uses cap.validity.use_count
           | none => false) then .error .UsageLimitExceeded
  else .ok ()

/-- Embeds `CapabilityToken::new`: `cap_<id>_<leading 16 hex of SHA-256(id_le ∥ secret)>`. -/
def tokenNew (cap_id : Nat) (secret : List Nat) : String :=
  "cap_" ++ toString cap_id ++ "_" ++ strTake (sha256hex (leBytes8 cap_id ++ secret)) 16

/-- Rust `u64::from_str`: optional leading `+`, one or more ASCII digits, no
overflow past `u64::MAX`. -/
def parseU64 (s : String) : Option Nat :=
  let cs := s.data
  let digits := if cs.head? = some (Char.ofNat 43) then cs.drop 1 else cs
  if digits.isEmpty then none
  else if digits.all (fun c => 48 ≤ c.toNat ∧ c.toNat ≤ 57) then
    let v := digits.foldl (fun acc c => acc * 10 + (c.toNat - 48)) 0
    if v < 18446744073709551616 then some v else none
  else none

/-- Embeds `CapabilityToken::capability_id`: split on `_`, require `cap` and at least
two parts, parse the second part as the id. The HMAC suffix is not inspected. -/
def capability_id (token : String) : Option Nat :=
  let parts := splitStr (Char.ofNat 95) token
  if parts.length ≥ 2 ∧ parts.getD 0 "" = "cap" then parseU64 (parts.getD 1 "")
  else none

/-- Association-list lookup standing in for `HashMap::get` on the capability
table (keys are capability ids). -/
def findCap (l : List (Nat × Capability)) (k : Nat) : Option Capability :=
  match l with
  | [] => none
  | p :: rest => if p.1 = k then some p.2 else findCap rest k

/-- Embeds `HashMap::insert`: replace any existing binding of the key. -/
def insertMap (k : Nat) (v : Capability) (l : List (Nat × Capability)) :
    List (Nat × Capability) :=
  (k, v) :: l.filter (fun p => p.1 ≠ k)

/-- Embeds `HashMap::get_mut` + in-place mutation: update the value bound at a key. -/
def updateMap (k : Nat) (f : Capability → Capability) (l : List (Nat × Capability)) :
    List (Nat × Capability) :=
  l.map (fun p => if p.1 = k then (p.1, f p.2) else p)

/-- Embeds `HashSet::insert` on the revocation set. -/
def insertSet (x : Nat) (l : List Nat) : List Nat :=
  if l.contains x then l else x :: l

/-- Embeds `HashMap::insert` on the token table. -/
def insertTok (k : String) (v : Nat) (l : List (String × Nat)) : List (String × Nat) :=
  (k, v) :: l.filter (fun p => p.1 ≠ k)

/-- The `CapabilityManager` mutable state: capability table, token table,
revocation set, id counter and the token secret. -/
structure CapState where
  capabilities : List (Nat × Capability)
  tokens : List (String × Nat)
  revocations : List Nat
  next_id : Nat
  secret : List Nat
deriving DecidableEq, Repr

/-- Embeds `CapabilityManager::new`. -/
def CapState.new (secret : List Nat) : CapState :=
  { capabilities := [], tokens := [], revocations := [], next_id := 1, secret := secret }

/-- Embeds `CapabilityManager::create_capability`. `now` stands for
`Self::current_timestamp()` (used both in the id and as `created_at`);
`next_id.fetch_add(1)` yields the pre-increment counter. -/
def create_capability (s : CapState) (resource_type : ResourceType) (resource_id : String)
    (rights : List CapabilityRight) (owner : String) (validity : CapabilityValidity)
    (now : Nat) : String × CapState :=
  let id := CapabilityId.new s.next_id now
  let cap : Capability :=
    { id := id, resource_type := resource_type, resource_id := resource_id, rights := rights,
      owner := owner, parent_id := none, validity := validity, revoked := false,
      created_at := now }
  let token := tokenNew id s.secret
  (token,
   { s with next_id := s.next_id + 1,
            capabilities := insertMap id cap s.capabilities,
            tokens := insertTok token id s.tokens })

/-- Embeds `CapabilityManager::validate`: parse the token, consult the revocation set,
look the capability up, check validity, then check rights. -/
def validate (s : CapState) (token : String) (required_rights : List CapabilityRight)
    (now : Nat) : Except CapabilityError Capability :=
  match capability_id token with
  | none => .error .InvalidToken
  | some cap_id =>
    if s.revocations.contains cap_id then .error .Revoked
    else
      match findCap s.capabilities cap_id with
      | none => .error (.NotFound token)
      | some cap =>
        match cap.is_valid now with
        | .error e => .error e
        | .ok _ =>
          let missing := (required_rights.filter (fun r => !(cap.has_right r))).map
            (fun r => r.as_str)
          if missing ≠ [] then
            .error (.InsufficientRights missing (cap.rights.map (fun r => r.as_str)))
          else .ok cap

/-- The `use_count += 1` mutation of `record_usage`. -/
def bumpUse (c : Capability) : Capability :=
  { c with validity := { c.validity with use_count := c.validity.use_count + 1 } }

/-- Embeds `CapabilityManager::record_usage`: parse, look up, increment `use_count`.
No validity check of any kind. -/
def record_usage (s : CapState) (token : String) : Except CapabilityError CapState :=
  match capability_id token with
  | none => .error .InvalidToken
  | some cap_id =>
    match findCap s.capabilities cap_id with
    | none => .error (.NotFound token)
    | some _ =>
      .ok ({ s with capabilities := updateMap cap_id bumpUse s.capabilities })

/-- Embeds `CapabilityManager::delegate`: validate the parent with the `Delegate`
right, enforce monotonic attenuation, then mint the child capability. -/
def delegate (s : CapState) (token : String) (new_owner : String)
    (rights : List CapabilityRight) (validity : CapabilityValidity) (now : Nat) :
    Except CapabilityError (String × CapState) :=
  match validate s token [CapabilityRight.Delegate] now with
  | .error e => .error e
  | .ok parent_cap =>
    let invalid_rights := rights.filter (fun r => !(parent_cap.has_right r))
    if invalid_rights ≠ [] then
      .error (.InsufficientRights (invalid_rights.map (fun r => r.as_str))
        (parent_cap.rights.map (fun r => r.as_str)))
    else
      let id := CapabilityId.new s.next_id now
      let cap : Capability :=
        { id := id, resource_type := parent_cap.resource_type,
          resource_id := parent_cap.resource_id, rights := rights, owner := new_owner,
          parent_id := some parent_cap.id, validity := validity, revoked := false,
          created_at := now }
      let new_token := tokenNew id s.secret
      .ok (new_token,
        { s with next_id := s.next_id + 1,
                 capabilities := insertMap id cap s.capabilities,
                 tokens := insertTok new_token id s.tokens })

/-- One step of `CapabilityManager::revoke`: mark a found capability revoked,
add it to the revocation set, bump the count. -/
def revokeStep (acc : List (Nat × Capability) × List Nat × Nat) (id : Nat) :
    List (Nat × Capability) × List Nat × Nat :=
  match findCap acc.1 id with
  | some _ =>
    (updateMap id (fun c => { c with revoked := true }) acc.1, insertSet id acc.2.1,
     acc.2.2 + 1)
  | none => acc

/-- Embeds `CapabilityManager::revoke`: collect the target plus capabilities whose
`parent_id` is the target (one level), mark each revoked, return the count. -/
def revoke (s : CapState) (token : String) : Except CapabilityError (Nat × CapState) :=
  match capability_id token with
  | none => .error .InvalidToken
  | some cap_id =>
    let children := (s.capabilities.filter
      (fun p => p.2.parent_id == some cap_id)).map (fun p => p.1)
    let to_revoke := cap_id :: children
    let res := to_revoke.foldl revokeStep (s.capabilities, s.revocations, 0)
    .ok (res.2.2, { s with capabilities := res.1, revocations := res.2.1 })

/-- Embeds `CapabilityManager::list_capabilities`. -/
def list_capabilities (s : CapState) (owner : String) : List Capability :=
  ((s.capabilities.map (fun p => p.2)).filter
    (fun c => c.owner == owner && !c.revoked))

end Caps

namespace Audit

/-- Audit event variants (`AuditEventType` in audit.rs). -/
inductive AuditEventType where
  | ModuleLoaded (module_name checksum : String)
  | ModuleUnloaded (module_name : String)
  | ModuleStarted (module_name : String)
  | ModuleStopped (module_name : String) (exit_code : Int)
  | ModuleCrashed (module_name error : String)
  | ModuleRestarted (module_name : String) (attempt : Nat)
  | CapabilityCreated (cap_id owner : String) (rights : List String)
  | CapabilityValidated (cap_id operation : String)
  | CapabilityDenied (cap_id reason : String)
  | CapabilityDelegated (parent_id new_id new_owner : String)
  | CapabilityRevoked (cap_id : String) (cascade_count : Nat)
  | SignatureVerified (module_name : String)
  | SignatureFailed (module_name error : String)
  | ExecutionStarted (module_name function : String)
  | ExecutionCompleted (module_name function : String) (fuel_used : Nat)
  | ExecutionFailed (module_name function error : String)
  | FuelExhausted (module_name : String) (fuel_limit : Nat)
  | MemoryLimitExceeded (module_name : String) (limit : Nat)
  | KernelStarted (version : String)
  | KernelShutdown (reason : String)
  | SupervisorEscalation (module_name : String) (level : Nat)
  | Custom (category message : String)
deriving DecidableEq, Repr

/-- serde_json string escaping for one character. -/
def escapeChar (c : Char) : List Char :=
  let n := c.toNat
  if n = 34 then [Char.ofNat 92, Char.ofNat 34]
  else if n = 92 then [Char.ofNat 92, Char.ofNat 92]
  else if n = 8 then [Char.ofNat 92, Char.ofNat 98]
  else if n = 9 then [Char.ofNat 92, Char.ofNat 116]
  else if n = 10 then [Char.ofNat 92, Char.ofNat 110]
  else if n = 12 then [Char.ofNat 92, Char.ofNat 102]
  else if n = 13 then [Char.ofNat 92, Char.ofNat 114]
  else if n < 32 then
    [Char.ofNat 92, Char.ofNat 117, Char.ofNat 48, Char.ofNat 48,
     Sha.hexDigit (n / 16), Sha.hexDigit (n % 16)]
  else [c]

/-- serde_json serialization of a string value. -/
def jsonString (s : String) : String :=
  "\"" ++ String.mk (s.data.flatMap escapeChar) ++ "\""

/-- Comma-join (kernel-reducible stand-in for `Vec` joining in serde). -/
def commaJoin : List String → String
  | [] => ""
  | [x] => x
  | x :: xs => x ++ "," ++ commaJoin xs

/-- serde_json serialization of a string list value. -/
def jsonStringList (l : List String) : String :=
  "[" ++ commaJoin (l.map jsonString) ++ "]"

/-- One externally-tagged struct variant with one field. -/
def jtag1 (tag f1 v1 : String) : String :=
  "\x7b" ++ jsonString tag ++ ":\x7b" ++ jsonString f1 ++ ":" ++ v1 ++ "\x7d\x7d"

/-- One externally-tagged struct variant with two fields. -/
def jtag2 (tag f1 v1 f2 v2 : String) : String :=
  "\x7b" ++ jsonString tag ++ ":\x7b" ++ jsonString f1 ++ ":" ++ v1 ++ "," ++
    jsonString f2 ++ ":" ++ v2 ++ "\x7d\x7d"

/-- One externally-tagged struct variant with three fields. -/
def jtag3 (tag f1 v1 f2 v2 f3 v3 : String) : String :=
  "\x7b" ++ jsonString tag ++ ":\x7b" ++ jsonString f1 ++ ":" ++ v1 ++ "," ++
    jsonString f2 ++ ":" ++ v2 ++ "," ++ jsonString f3 ++ ":" ++ v3 ++ "\x7d\x7d"

/-- Embeds `serde_json::to_string` of an `AuditEventType` (externally tagged enum,
fields in declaration order). -/
def eventJson : AuditEventType → String
  | .ModuleLoaded module_name checksum =>
    jtag2 "ModuleLoaded" "module_name" (jsonString module_name) "checksum" (jsonString checksum)
  | .ModuleUnloaded module_name =>
    jtag1 "ModuleUnloaded" "module_name" (jsonString module_name)
  | .ModuleStarted module_name =>
    jtag1 "ModuleStarted" "module_name" (jsonString module_name)
  | .ModuleStopped module_name exit_code =>
    jtag2 "ModuleStopped" "module_name" (jsonString module_name) "exit_code" (toString exit_code)
  | .ModuleCrashed module_name error =>
    jtag2 "ModuleCrashed" "module_name" (jsonString module_name) "error" (jsonString error)
  | .ModuleRestarted module_name attempt =>
    jtag2 "ModuleRestarted" "module_name" (jsonString module_name) "attempt" (toString attempt)
  | .CapabilityCreated cap_id owner rights =>
    jtag3 "CapabilityCreated" "cap_id" (jsonString cap_id) "owner" (jsonString owner)
      "rights" (jsonStringList rights)
  | .CapabilityValidated cap_id operation =>
    jtag2 "CapabilityValidated" "cap_id" (jsonString cap_id) "operation" (jsonString operation)
  | .CapabilityDenied cap_id reason =>
    jtag2 "CapabilityDenied" "cap_id" (jsonString cap_id) "reason" (jsonString reason)
  | .CapabilityDelegated parent_id new_id new_owner =>
    jtag3 "CapabilityDelegated" "parent_id" (jsonString parent_id) "new_id" (jsonString new_id)
      "new_owner" (jsonString new_owner)
  | .CapabilityRevoked cap_id cascade_count =>
    jtag2 "CapabilityRevoked" "cap_id" (jsonString cap_id) "cascade_count" (toString cascade_count)
  | .SignatureVerified module_name =>
    jtag1 "SignatureVerified" "module_name" (jsonString module_name)
  | .SignatureFailed module_name error =>
    jtag2 "SignatureFailed" "module_name" (jsonString module_name) "error" (jsonString error)
  | .ExecutionStarted module_name function =>
    jtag2 "ExecutionStarted" "module_name" (jsonString module_name) "function" (jsonString function)
  | .ExecutionCompleted module_name function fuel_used =>
    jtag3 "ExecutionCompleted" "module_name" (jsonString module_name) "function"
      (jsonString function) "fuel_used" (toString fuel_used)
  | .ExecutionFailed module_name function error =>
    jtag3 "ExecutionFailed" "module_name" (jsonString module_name) "function"
      (jsonString function) "error" (jsonString error)
  | .FuelExhausted module_name fuel_limit =>
    jtag2 "FuelExhausted" "module_name" (jsonString module_name) "fuel_limit" (toString fuel_limit)
  | .MemoryLimitExceeded module_name limit =>
    jtag2 "MemoryLimitExceeded" "module_name" (jsonString module_name) "limit" (toString limit)
  | .KernelStarted version =>
    jtag1 "KernelStarted" "version" (jsonString version)
  | .KernelShutdown reason =>
    jtag1 "KernelShutdown" "reason" (jsonString reason)
  | .SupervisorEscalation module_name level =>
    jtag2 "SupervisorEscalation" "module_name" (jsonString module_name) "level" (toString level)
  | .Custom category message =>
    jtag2 "Custom" "category" (jsonString category) "message" (jsonString message)

/-- One audit log entry (`AuditEntry`). -/
structure AuditEntry where
  sequence : Nat
  timestamp : Nat
  event : AuditEventType
  source : String
  prev_hash : String
  hash : String
deriving DecidableEq, Repr

/-- Embeds `AuditEntry::compute_hash`: SHA-256 over sequence (LE), timestamp (LE),
the serde_json event bytes, the source bytes, and the prev_hash bytes. -/
def compute_hash (sequence timestamp : Nat) (event : AuditEventType)
    (source prev_hash : String) : String :=
  Sha.sha256hex (Sha.leBytes8 sequence ++ Sha.leBytes8 timestamp ++
    Sha.utf8Bytes (eventJson event) ++ Sha.utf8Bytes source ++ Sha.utf8Bytes prev_hash)

/-- Embeds `AuditEntry::verify`: recompute this entry's hash and compare. -/
def AuditEntry.verify (e : AuditEntry) : Bool :=
  compute_hash e.sequence e.timestamp e.event e.source e.prev_hash == e.hash

/-- Embeds `AuditLogConfig`. -/
structure AuditLogConfig where
  max_entries : Nat
  verbose : Bool
deriving DecidableEq, Repr

/-- The audit chain anchor: `SHA-256("ESTA-KERNEL-GENESIS")`. -/
def genesisHash : String := Sha.sha256hex (Sha.utf8Bytes "ESTA-KERNEL-GENESIS")

/-- The audit log state (`AuditLog`): bounded entry ring, sequence counter,
last hash, configuration. -/
structure AuditLog where
  entries : List AuditEntry
  sequence : Nat
  last_hash : String
  config : AuditLogConfig
deriving DecidableEq, Repr

/-- Embeds `AuditLog::new`. -/
def AuditLog.new (config : AuditLogConfig) : AuditLog :=
  { entries := [], sequence := 0, last_hash := genesisHash, config := config }

/-- Embeds `AuditLog::append`: bump the sequence, chain on `last_hash`, drop the head
when the ring is full, push the new entry at the tail. `now` stands for
`Self::current_timestamp()`. -/
def append (log : AuditLog) (event_type : AuditEventType) (source : String) (now : Nat) :
    AuditEntry × AuditLog :=
  let sequence := log.sequence + 1
  let prev_hash := log.last_hash
  let hash := compute_hash sequence now event_type source prev_hash
  let entry : AuditEntry :=
    { sequence := sequence, timestamp := now, event := event_type, source := source,
      prev_hash := prev_hash, hash := hash }
  let trimmed :=
    if log.entries.length ≥ log.config.max_entries then log.entries.drop 1 else log.entries
  (entry, { log with entries := trimmed ++ [entry], sequence := sequence, last_hash := hash })

/-- Embeds `AuditLog::get_all_entries`. -/
def get_all_entries (log : AuditLog) : List AuditEntry := log.entries

/-- Embeds `ChainVerification`. -/
structure ChainVerification where
  valid : Bool
  entries_checked : Nat
  first_invalid : Option Nat
deriving DecidableEq, Repr

/-- The loop of `AuditLog::verify_chain`: recompute each entry's hash and check
continuity against the running previous hash, starting from the genesis hash. -/
def verifyChainGo (total : Nat) (prev : String) : List AuditEntry → ChainVerification
  | [] => { valid := true, entries_checked := total, first_invalid := none }
  | e :: rest =>
    if !e.verify then
      { valid := false, entries_checked := e.sequence, first_invalid := some e.sequence }
    else if e.prev_hash ≠ prev then
      { valid := false, entries_checked := e.sequence, first_invalid := some e.sequence }
    else verifyChainGo total e.hash rest

/-- Embeds `AuditLog::verify_chain`. -/
def verify_chain (log : AuditLog) : ChainVerification :=
  if log.entries.isEmpty then { valid := true, entries_checked := 0, first_invalid := none }
  else verifyChainGo log.entries.length genesisHash log.entries

/-- Fold a sequence of appends (event, source, timestamp) into the log. -/
def appendMany (log : AuditLog) (events : List (AuditEventType × String × Nat)) : AuditLog :=
  events.foldl (fun l ev => (append l ev.1 ev.2.1 ev.2.2).2) log

end Audit

namespace Sup

/-- Embeds `RestartStrategy`. -/
inductive RestartStrategy where
  | Permanent
  | Temporary
  | Transient
deriving DecidableEq, Repr

/-- Embeds `EscalationLevel`. -/
inductive EscalationLevel where
  | Level1RestartWithState
  | Level2RestartClean
  | Level3ReloadModule
  | Level4RestartSupervisor
  | Level5SystemRestart
deriving DecidableEq, Repr

/-- The numeric discriminant of an escalation level (used by the derived
`Ord` in the source). -/
def EscalationLevel.toNat : EscalationLevel → Nat
  | .Level1RestartWithState => 1
  | .Level2RestartClean => 2
  | .Level3ReloadModule => 3
  | .Level4RestartSupervisor => 4
  | .Level5SystemRestart => 5

/-- Embeds `EscalationLevel::next`. -/
def EscalationLevel.next : EscalationLevel → EscalationLevel
  | .Level1RestartWithState => .Level2RestartClean
  | .Level2RestartClean => .Level3ReloadModule
  | .Level3ReloadModule => .Level4RestartSupervisor
  | .Level4RestartSupervisor => .Level5SystemRestart
  | .Level5SystemRestart => .Level5SystemRestart

/-- Rust `{:?}` rendering of an escalation level. -/
def EscalationLevel.debugStr : EscalationLevel → String
  | .Level1RestartWithState => "Level1RestartWithState"
  | .Level2RestartClean => "Level2RestartClean"
  | .Level3ReloadModule => "Level3ReloadModule"
  | .Level4RestartSupervisor => "Level4RestartSupervisor"
  | .Level5SystemRestart => "Level5SystemRestart"

/-- Embeds `ChildSpec`. `backoff_factor` is `f64` in the source; it is embedded as a
natural number because the claims fix `backoff_factor = 2.0` and for an
integer factor, integer base and the involved magnitudes the source's
`base as f64 * factor.powf(attempt)` / `.min(max as f64) as u64` computes
exactly the integer `min (max, base * factor ^ attempt)`. -/
structure ChildSpec where
  id : String
  manifest_path : String
  restart : RestartStrategy
  max_restarts : Nat
  restart_intensity_window : Nat
  base_restart_delay_ms : Nat
  max_restart_delay_ms : Nat
  backoff_factor : Nat
deriving DecidableEq, Repr

/-- Embeds `ChildState`. -/
inductive ChildState where
  | Starting
  | Running
  | Crashed (error : String)
  | Restarting (attempt : Nat)
  | Stopped (reason : String)
  | Terminated
deriving DecidableEq, Repr

/-- Embeds `ChildInfo`. Instants are embedded as milliseconds (`Nat`). -/
structure ChildInfo where
  spec : ChildSpec
  state : ChildState
  restart_count : Nat
  restart_window_start : Option Nat
  last_crash : Option Nat
  escalation_level : EscalationLevel
  total_crashes : Nat
deriving DecidableEq, Repr

/-- Embeds `ChildInfo::new`. -/
def ChildInfo.new (spec : ChildSpec) : ChildInfo :=
  { spec := spec, state := .Starting, restart_count := 0, restart_window_start := none,
    last_crash := none, escalation_level := .Level1RestartWithState, total_crashes := 0 }

/-- Embeds `ChildInfo::calculate_restart_delay`:
`min(max_delay, base_delay * factor ^ restart_count)` in milliseconds. -/
def calculate_restart_delay (c : ChildInfo) : Nat :=
  min c.spec.max_restart_delay_ms
    (c.spec.base_restart_delay_ms * c.spec.backoff_factor ^ c.restart_count)

/-- Embeds `ChildInfo::restart_limit_exceeded`. -/
def restart_limit_exceeded (c : ChildInfo) (now : Nat) : Bool :=
  match c.restart_window_start with
  | some window_start =>
    if Nat.blt (c.spec.restart_intensity_window * 1000) (now - window_start) then false
    else Nat.ble c.spec.max_restarts c.restart_count
  | none => false

/-- Embeds `ChildInfo::reset_window_if_expired`. -/
def reset_window_if_expired (c : ChildInfo) (now : Nat) : ChildInfo :=
  match c.restart_window_start with
  | some window_start =>
    if Nat.blt (c.spec.restart_intensity_window * 1000) (now - window_start) then
      { c with restart_count := 0, restart_window_start := some now,
               escalation_level := .Level1RestartWithState }
    else c
  | none => c

/-- Embeds `SupervisorAction`. `Restart.delay` is embedded in milliseconds. -/
inductive SupervisorAction where
  | Restart (delay_ms : Nat) (manifest_path : String) (escalation : EscalationLevel)
  | Stop
  | Escalate (level : EscalationLevel)
deriving DecidableEq, Repr

/-- Whether an action is a `Restart`. -/
def SupervisorAction.isRestart : SupervisorAction → Bool
  | .Restart _ _ _ => true
  | _ => false

/-- The tail of `Supervisor::report_crash` that actually restarts: bump
`restart_count`, compute the backoff delay, move to `Restarting`. -/
def restartWith (c : ChildInfo) : SupervisorAction × ChildInfo :=
  let c := { c with restart_count := c.restart_count + 1 }
  let delay := calculate_restart_delay c
  (SupervisorAction.Restart delay c.spec.manifest_path c.escalation_level,
   { c with state := ChildState.Restarting c.restart_count })

/-- The window maintenance at the head of the restart path of
`Supervisor::report_crash`: reset the window if expired, then start it if
unset. -/
def windowPrep (c : ChildInfo) (now : Nat) : ChildInfo :=
  let c := reset_window_if_expired c now
  if c.restart_window_start.isNone then { c with restart_window_start := some now } else c

/-- The window/limit/escalation part of `Supervisor::report_crash` (everything
after the restart-strategy match). -/
def reportCrashRestartPath (c : ChildInfo) (now : Nat) : SupervisorAction × ChildInfo :=
  let c := windowPrep c now
  if restart_limit_exceeded c now then
    let c := { c with escalation_level := c.escalation_level.next }
    if Nat.ble 4 c.escalation_level.toNat then
      let reason := "Restart limit exceeded, escalated to " ++ c.escalation_level.debugStr
      (SupervisorAction.Escalate c.escalation_level,
       { c with state := ChildState.Stopped reason })
    else restartWith { c with restart_count := 0 }
  else restartWith c

/-- The state/bookkeeping update at the head of `Supervisor::report_crash`. -/
def crashBump (c : ChildInfo) (error : String) (now : Nat) : ChildInfo :=
  { c with state := ChildState.Crashed error, last_crash := some now,
           total_crashes := c.total_crashes + 1 }

/-- Embeds `Supervisor::report_crash` on one child (the per-child body; the map lookup
is `Supervisor.report_crash` below). `now` stands for `Instant::now()`. -/
def report_crash (c : ChildInfo) (error : String) (now : Nat) :
    SupervisorAction × ChildInfo :=
  let c := crashBump c error now
  match c.spec.restart with
  | .Temporary =>
    (SupervisorAction.Stop, { c with state := ChildState.Stopped "Temporary strategy - no restart" })
  | .Transient =>
    if error == "normal" || error == "shutdown" then
      (SupervisorAction.Stop, { c with state := ChildState.Terminated })
    else reportCrashRestartPath c now
  | .Permanent => reportCrashRestartPath c now

/-- Association-list lookup on the supervisor's child table. -/
def findChild (l : List (String × ChildInfo)) (k : String) : Option ChildInfo :=
  match l with
  | [] => none
  | p :: rest => if p.1 = k then some p.2 else findChild rest k

/-- Update the child bound at a key. -/
def updateChild (k : String) (v : ChildInfo) (l : List (String × ChildInfo)) :
    List (String × ChildInfo) :=
  l.map (fun p => if p.1 = k then (p.1, v) else p)

/-- The `Supervisor` child table. -/
structure Supervisor where
  children : List (String × ChildInfo)
deriving DecidableEq, Repr

/-- Embeds `Supervisor::register_child`. -/
def Supervisor.register_child (sup : Supervisor) (spec : ChildSpec) :
    Except String Supervisor :=
  if (findChild sup.children spec.id).isSome then
    .error ("Child " ++ spec.id ++ " already registered")
  else .ok { children := sup.children ++ [(spec.id, ChildInfo.new spec)] }

/-- Embeds `Supervisor::report_crash` at the supervisor level. -/
def Supervisor.report_crash (sup : Supervisor) (id : String) (error : String) (now : Nat) :
    Except String (SupervisorAction × Supervisor) :=
  match findChild sup.children id with
  | none => .error ("Child " ++ id ++ " not found")
  | some c =>
    let r := Sup.report_crash c error now
    .ok (r.1, { children := updateChild id r.2 sup.children })

end Sup

namespace Kern

/-- Embeds `ExecutionConfig`. -/
structure ExecutionConfig where
  max_fuel : Nat
  max_memory_bytes : Nat
  min_memory_bytes : Nat
  max_tables : Nat
  max_instances : Nat
  require_signatures : Bool
deriving DecidableEq, Repr

/-- Embeds `ExecutionConfig::default`. -/
def ExecutionConfig.default : ExecutionConfig :=
  { max_fuel := 20000000, max_memory_bytes := 32 * 1024 * 1024,
    min_memory_bytes := 4 * 1024 * 1024, max_tables := 10, max_instances := 10,
    require_signatures := false }

/-- Embeds `ModuleManifest`. -/
structure ModuleManifest where
  name : String
  path : String
  checksum : String
  capabilities : List String
  signature : Option String
deriving DecidableEq, Repr

/-- Kernel capability vocabulary (`Capability` in kernel.rs). -/
inductive Capability where
  | Log
  | AuditEmit
  | PersistenceRead
  | PersistenceWrite
deriving DecidableEq, Repr

/-- Embeds `Capability::from_str`. -/
def Capability.from_str (s : String) : Option Capability :=
  if s = "log" then some .Log
  else if s = "audit_emit" then some .AuditEmit
  else if s = "persistence_read" then some .PersistenceRead
  else if s = "persistence_write" then some .PersistenceWrite
  else none

/-- Embeds `Kernel::parse_capabilities`: unknown names are silently dropped. -/
def parse_capabilities (manifest : ModuleManifest) : List Capability :=
  manifest.capabilities.filterMap Capability.from_str

/-- Embeds `Kernel::verify_checksum`. -/
def verify_checksum (module_bytes : List Nat) (expected_checksum : String) :
    Except String Unit :=
  let actual_checksum := Sha.sha256hex module_bytes
  if actual_checksum ≠ expected_checksum then
    .error ("Checksum mismatch: expected " ++ expected_checksum ++ ", got " ++ actual_checksum)
  else .ok ()

/-- Embeds `Kernel::verify_signature`. The Ed25519 verifier lives behind
`self.signature_verifier`; it is embedded as `verifier : Option (Except
String Unit)` — `none` means no verifier configured, `some r` the configured
verifier whose `verify_module` call on these inputs returns `r`. In advisory
mode (require_signatures = false) the source only warns and always succeeds. -/
def verify_signature (config : ExecutionConfig) (verifier : Option (Except String Unit))
    (manifest : ModuleManifest) : Except String Unit :=
  if config.require_signatures then
    match manifest.signature with
    | none => .error ("Signature required but not provided for module " ++ manifest.name)
    | some _ =>
      match verifier with
      | none => .error "Signature verification required but no verifier configured"
      | some (.error e) =>
        .error ("Signature verification failed for module " ++ manifest.name ++ ": " ++ e)
      | some (.ok _) => .ok ()
  else .ok ()

/-- A registered module handle (`ModuleHandle`; the task join handle and the
stats cell are runtime objects and carry no data at registration time). -/
structure ModuleHandle where
  name : String
  capabilities : List Capability
deriving DecidableEq, Repr

/-- Embeds `ModuleRegistry::register` (`HashMap::insert`: replace any existing
binding). -/
def registerHandle (name : String) (h : ModuleHandle) (l : List (String × ModuleHandle)) :
    List (String × ModuleHandle) :=
  (name, h) :: l.filter (fun p => p.1 ≠ name)

/-- The kernel state relevant to module loading: registry and audit log. -/
structure KernelState where
  registry : List (String × ModuleHandle)
  audit_log : Audit.AuditLog
deriving DecidableEq, Repr

/-- Embeds `Kernel::launch_module`, starting after the descriptor and payload reads
(both IO): checksum, signature, capability parsing, `ModuleLoaded` audit
event, module compilation and instantiation (wasmtime calls, embedded as the
oracle outcomes `module_new` and `instantiate`), then registration. The
result pairs the `Result` with the kernel state after the call. -/
def launch_module (st : KernelState) (config : ExecutionConfig)
    (verifier : Option (Except String Unit)) (manifest : ModuleManifest)
    (module_bytes : List Nat) (module_new : Except String Unit)
    (instantiate : Except String Unit) (now : Nat) :
    Except String Unit × KernelState :=
  match verify_checksum module_bytes manifest.checksum with
  | .error e => (.error e, st)
  | .ok _ =>
    match verify_signature config verifier manifest with
    | .error e => (.error e, st)
    | .ok _ =>
      let capabilities := parse_capabilities manifest
      let st1 : KernelState :=
        { st with audit_log := (Audit.append st.audit_log
            (Audit.AuditEventType.ModuleLoaded manifest.name manifest.checksum)
            "kernel" now).2 }
      match module_new with
      | .error e => (.error e, st1)
      | .ok _ =>
        match instantiate with
        | .error e => (.error e, st1)
        | .ok _ =>
          let handle : ModuleHandle := { name := manifest.name, capabilities := capabilities }
          (.ok (),
           { st1 with registry := registerHandle manifest.name handle st1.registry })

end Kern

/-! ## Derived predicates and concrete scenario states used by the claims. -/

namespace Audit

/-- The chain predicate `verify_chain` enforces: every entry recomputes its
hash and links to the running previous hash. -/
def chainFrom (prev : String) : List AuditEntry → Bool
  | [] => true
  | e :: rest => e.verify && (e.prev_hash == prev) && chainFrom e.hash rest

/-- The hash of the last entry, or the anchor when the list is empty. -/
def lastHashFrom (anchor : String) : List AuditEntry → String
  | [] => anchor
  | e :: rest => lastHashFrom e.hash rest

end Audit

namespace Caps

/-- Every capability in the table is keyed by its own id field. -/
def KeyedId (s : CapState) : Prop :=
  ∀ i c, findCap s.capabilities i = some c → c.id = i

/-- Delegation attenuation as a state invariant: every capability with a
parent has its rights contained in the parent's rights, and the parent is
present in the table. -/
def Attenuated (s : CapState) : Prop :=
  ∀ i c pid, findCap s.capabilities i = some c → c.parent_id = some pid →
    ∃ pc, findCap s.capabilities pid = some pc ∧ ∀ r ∈ c.rights, r ∈ pc.rights

/-- Manager states reachable through the public operations, starting from
`CapabilityManager::new`. The freshness side conditions record that the
minted ids did not collide with existing table keys (true of every real
history short of a 2^32 wrap of the id counter within one millisecond). -/
inductive CapReach : CapState → Prop where
  | init (secret : List Nat) : CapReach (CapState.new secret)
  | create (s : CapState) (resource_type : ResourceType) (resource_id : String)
      (rights : List CapabilityRight) (owner : String) (validity : CapabilityValidity)
      (now : Nat) (h : CapReach s)
      (hfresh : findCap s.capabilities (CapabilityId.new s.next_id now) = none) :
      CapReach (create_capability s resource_type resource_id rights owner validity now).2
  | delegated (s : CapState) (token new_owner : String) (rights : List CapabilityRight)
      (validity : CapabilityValidity) (now : Nat) (t : String) (s₂ : CapState)
      (h : CapReach s)
      (hfresh : findCap s.capabilities (CapabilityId.new s.next_id now) = none)
      (hstep : delegate s token new_owner rights validity now = Except.ok (t, s₂)) :
      CapReach s₂
  | revoked (s : CapState) (token : String) (n : Nat) (s₂ : CapState) (h : CapReach s)
      (hstep : revoke s token = Except.ok (n, s₂)) : CapReach s₂
  | used (s : CapState) (token : String) (s₂ : CapState) (h : CapReach s)
      (hstep : record_usage s token = Except.ok s₂) : CapReach s₂

end Caps

/-- A fixed all-zero 32-byte manager secret for the concrete scenarios (the
source's `generate_secret` itself falls back to 32 zero bytes when the
system RNG fails). -/
def secretZ : List Nat := List.replicate 32 0

/-- C1 scenario: one freshly created capability (id 1, owner1, Read). -/
def mintC1 : String × Caps.CapState :=
  Caps.create_capability (Caps.CapState.new secretZ) Caps.ResourceType.Module "test-module"
    [Caps.CapabilityRight.Read] "owner1" Caps.CapabilityValidity.default 0

/-- The genuine token of the C1 capability. -/
def tokenC1 : String := mintC1.1

/-- The manager state holding the C1 capability. -/
def stC1 : Caps.CapState := mintC1.2

/-- A forged token for the live id 1 whose 16-char suffix is not the minted
HMAC half. -/
def forgedC1 : String := "cap_1_0000000000000000"

/-- The capability stored under id 1 in the C1 scenario state. -/
def capLitC1 : Caps.Capability :=
  { id := 1, resource_type := Caps.ResourceType.Module, resource_id := "test-module",
    rights := [Caps.CapabilityRight.Read], owner := "owner1", parent_id := none,
    validity := Caps.CapabilityValidity.default, revoked := false, created_at := 0 }

/-- C2 scenario, step 1: parent capability with Read/Write/Delegate. -/
def mintC2 : String × Caps.CapState :=
  Caps.create_capability (Caps.CapState.new secretZ) Caps.ResourceType.Module "m"
    [Caps.CapabilityRight.Read, Caps.CapabilityRight.Write, Caps.CapabilityRight.Delegate]
    "p" Caps.CapabilityValidity.default 0

/-- The parent token of the C2 chain. -/
def tokenP : String := mintC2.1

/-- C2 scenario, step 2: child A delegated from the parent with Read/Delegate. -/
def delA : String × Caps.CapState :=
  (Caps.delegate mintC2.2 tokenP "a" [Caps.CapabilityRight.Read, Caps.CapabilityRight.Delegate]
    Caps.CapabilityValidity.default 0).toOption.getD ("", Caps.CapState.new [])

/-- Child A's token. -/
def tokenA : String := delA.1

/-- C2 scenario, step 3: grandchild B delegated from A with Read. -/
def delB : String × Caps.CapState :=
  (Caps.delegate delA.2 tokenA "b" [Caps.CapabilityRight.Read]
    Caps.CapabilityValidity.default 0).toOption.getD ("", Caps.CapState.new [])

/-- Grandchild B's token. -/
def tokenB : String := delB.1

/-- C2 scenario, step 4: revoke the parent. -/
def revC2 : Nat × Caps.CapState :=
  (Caps.revoke delB.2 tokenP).toOption.getD (0, Caps.CapState.new [])

/-- The manager state after revoking the C2 parent. -/
def stC2 : Caps.CapState := revC2.2

/-- An audit event for the C3/C8 scenarios (all timestamps 0). -/
def evA (i : Nat) : Audit.AuditEventType × String × Nat :=
  (Audit.AuditEventType.ModuleLoaded ("mod" ++ toString i) "hash", "kernel", 0)

/-- C3 scenario: three untampered appends into a ring bounded at 2 — the
first entry has been dropped by the trim. -/
def logC3 : Audit.AuditLog :=
  Audit.appendMany (Audit.AuditLog.new { max_entries := 2, verbose := false })
    [evA 0, evA 1, evA 2]

/-- C8 scenario: ten untampered appends into a ring bounded at 5. -/
def logC8 : Audit.AuditLog :=
  Audit.appendMany (Audit.AuditLog.new { max_entries := 5, verbose := false })
    ((List.range 10).map evA)

/-- C4 scenario child spec: base 100 ms, factor 2, max 30000 ms. -/
def specC4 : Sup.ChildSpec :=
  { id := "m", manifest_path := "/p", restart := Sup.RestartStrategy.Permanent,
    max_restarts := 5, restart_intensity_window := 60, base_restart_delay_ms := 100,
    max_restart_delay_ms := 30000, backoff_factor := 2 }

/-- First crash of the C4 child. -/
def crash1 : Sup.SupervisorAction × Sup.ChildInfo :=
  Sup.report_crash (Sup.ChildInfo.new specC4) "err" 0

/-- Second crash of the C4 child. -/
def crash2 : Sup.SupervisorAction × Sup.ChildInfo :=
  Sup.report_crash crash1.2 "err" 0

/-- Third crash of the C4 child. -/
def crash3 : Sup.SupervisorAction × Sup.ChildInfo :=
  Sup.report_crash crash2.2 "err" 0

/-- A transient child used by the C9 witness. -/
def childTransient : Sup.ChildInfo :=
  Sup.ChildInfo.new { specC4 with id := "t", restart := Sup.RestartStrategy.Transient }

/-- A temporary child used by the C9 witness. -/
def childTemporary : Sup.ChildInfo :=
  Sup.ChildInfo.new { specC4 with id := "tmp", restart := Sup.RestartStrategy.Temporary }

/-- C7 scenario manifest: checksum of the payload "hello", capability log. -/
def manifestC7 : Kern.ModuleManifest :=
  { name := "m1", path := "m1.wasm", checksum := Sha.sha256hex (Sha.utf8Bytes "hello"),
    capabilities := ["log"], signature := none }

/-- C7 scenario initial kernel state: empty registry, fresh audit log. -/
def kernSt0 : Kern.KernelState :=
  { registry := [],
    audit_log := Audit.AuditLog.new { max_entries := 10000, verbose := false } }

/-- C10 witness capability: revoked, expired, and already past its usage
limit, bound at id 7. -/
def capC10 : Caps.Capability :=
  { id := 7, resource_type := Caps.ResourceType.Module, resource_id := "m",
    rights := [Caps.CapabilityRight.Read], owner := "o", parent_id := none,
    validity := { expires_at := some 5, max_uses := some 1, use_count := 1 },
    revoked := true, created_at := 0 }

/-- C10 witness state: the table holds `capC10` under id 7. -/
def stC10 : Caps.CapState :=
  { capabilities := [(7, capC10)], tokens := [], revocations := [], next_id := 2,
    secret := secretZ }

/-- A well-formed token addressing id 7 (suffix immaterial to `record_usage`). -/
def tokC10 : String := "cap_7_aaaaaaaaaaaaaaaa"

/-- The parent capability stored under id 1 in the C2 chain state. -/
def capParentC2 : Caps.Capability :=
  { id := 1, resource_type := Caps.ResourceType.Module, resource_id := "m",
    rights := [Caps.CapabilityRight.Read, Caps.CapabilityRight.Write,
               Caps.CapabilityRight.Delegate],
    owner := "p", parent_id := none, validity := Caps.CapabilityValidity.default,
    revoked := false, created_at := 0 }


/-! ## Shared helper lemmas. -/

theorem Caps.mem_insertSet {x i : Nat} {l : List Nat} (h : i ∈ Caps.insertSet x l) :
    i = x ∨ i ∈ l := by
  unfold Caps.insertSet at h
  split at h
  · exact Or.inr h
  · exact List.mem_cons.mp h

theorem Caps.revokeFold_revocs (ids : List Nat) :
    ∀ (acc : List (Nat × Caps.Capability) × List Nat × Nat) (i : Nat),
      i ∈ (ids.foldl Caps.revokeStep acc).2.1 → i ∈ acc.2.1 ∨ i ∈ ids := by
  induction ids with
  | nil => intro acc i h; exact Or.inl h
  | cons id rest ih =>
    intro acc i h
    rw [List.foldl_cons] at h
    rcases ih (Caps.revokeStep acc id) i h with h1 | h2
    · unfold Caps.revokeStep at h1
      cases hf : Caps.findCap acc.1 id with
      | none => rw [hf] at h1; exact Or.inl h1
      | some c =>
        rw [hf] at h1
        rcases Caps.mem_insertSet h1 with rfl | hm
        · exact Or.inr (List.mem_cons_self _ _)
        · exact Or.inl hm
    · exact Or.inr (List.mem_cons_of_mem _ h2)

/-! ## Claim theorems. -/

/-- C1 (code_bug evidence): token unforgeability fails. With a live,
non-revoked capability at id 1, the forged token `cap_1_0000000000000000` —
whose 16-hex suffix is not the leading half of SHA-256(id_le ∥ secret) —
is accepted by `validate`, which returns the full capability snapshot. The
source never checks the HMAC suffix: `capability_id` parses only the id. -/
theorem C1_token_forgery_accepted :
    (Sha.sha256hex (Sha.leBytes8 1 ++ secretZ)).take 16 ≠ "0000000000000000" ∧
    forgedC1 ≠ tokenC1 ∧
    stC1.revocations = [] ∧
    Caps.validate stC1 forgedC1 [Caps.CapabilityRight.Read] 0 =
      Except.ok
        { id := 1, resource_type := Caps.ResourceType.Module, resource_id := "test-module",
          rights := [Caps.CapabilityRight.Read], owner := "owner1", parent_id := none,
          validity := Caps.CapabilityValidity.default, revoked := false, created_at := 0 } := by
  decide

/-- C2 counterexample: in the chain parent → A → B, after `revoke(parent)`
the grandchild B — a descendant of the parent via two delegation steps —
still validates successfully, so it does not fail with `Revoked` as the
claim requires. -/
theorem C2_counterexample :
    revC2.1 = 2 ∧
    (Caps.findCap stC2.capabilities 3).map Caps.Capability.parent_id = some (some 2) ∧
    (Caps.findCap stC2.capabilities 2).map Caps.Capability.parent_id = some (some 1) ∧
    Caps.validate stC2 tokenB [Caps.CapabilityRight.Read] 0 ≠
      Except.error Caps.CapabilityError.Revoked ∧
    (Caps.validate stC2 tokenB [Caps.CapabilityRight.Read] 0).isOk = true := by
  decide

/-- C2 amended: `revoke` is a single-level sweep. For the chain
parent → A → B, `revoke(parent)` returns 2 (the parent and its direct child
A), validation of the parent's and A's tokens then fails with `Revoked`,
but grandchild B still validates successfully; in general every id a call
to `revoke` adds to the revocation set is the target itself or a direct
child (an entry whose `parent_id` is the target). -/
theorem C2_single_level_revocation :
    (revC2.1 = 2 ∧
     Caps.validate stC2 tokenP [Caps.CapabilityRight.Read] 0 =
       Except.error Caps.CapabilityError.Revoked ∧
     Caps.validate stC2 tokenA [Caps.CapabilityRight.Read] 0 =
       Except.error Caps.CapabilityError.Revoked ∧
     (Caps.validate stC2 tokenB [Caps.CapabilityRight.Read] 0).isOk = true) ∧
    (∀ (s : Caps.CapState) (token : String) (cap_id n : Nat) (s₂ : Caps.CapState),
      Caps.capability_id token = some cap_id →
      Caps.revoke s token = Except.ok (n, s₂) →
      ∀ i, i ∈ s₂.revocations →
        i ∈ s.revocations ∨ i = cap_id ∨
        ∃ c, (i, c) ∈ s.capabilities ∧ c.parent_id = some cap_id) := by
  constructor
  · decide
  · intro s token cap_id n s₂ hparse hstep i hi
    unfold Caps.revoke at hstep
    rw [hparse] at hstep
    simp only [Except.ok.injEq, Prod.mk.injEq] at hstep
    obtain ⟨-, hs⟩ := hstep
    rw [← hs] at hi
    simp only at hi
    rcases Caps.revokeFold_revocs _ _ _ hi with h1 | h2
    · exact Or.inl h1
    · rcases List.mem_cons.mp h2 with rfl | hch
      · exact Or.inr (Or.inl rfl)
      · rcases List.mem_map.mp hch with ⟨p, hp, rfl⟩
        rcases List.mem_filter.mp hp with ⟨hmem, hpred⟩
        refine Or.inr (Or.inr ⟨p.2, ?_, beq_iff_eq.mp hpred⟩)
        exact (Prod.mk.eta (p := p)) ▸ hmem

/-- C2 witness for the amended general part: applied to the concrete chain,
id 2 (child A) entered the revocation set because the capability bound at 2
has `parent_id = some 1`, the revoked target. -/
theorem C2_single_level_revocation_witness :
    2 ∈ delB.2.revocations ∨ 2 = 1 ∨
    ∃ c, (2, c) ∈ delB.2.capabilities ∧ c.parent_id = some 1 :=
  C2_single_level_revocation.2 delB.2 tokenP 1 2 stC2 (by decide) (by decide) 2 (by decide)

/-- C4 counterexample: with base 100 ms and factor 2.0, the first
`report_crash` returns a `Restart` whose delay is 200 ms, not the 100 ms the
claim states — `restart_count` is incremented before the delay is computed,
so the exponent starts at 1. -/
theorem C4_counterexample :
    crash1.1 = Sup.SupervisorAction.Restart 200 "/p" Sup.EscalationLevel.Level1RestartWithState ∧
    (200 : Nat) ≠ 100 := by
  decide

/-- C4 amended: with base 100 ms and factor 2.0, three consecutive crashes
produce `Restart` delays 200, 400 and 800 ms — the delay is
min(max_delay, base × factor ^ attempt) with the attempt counter
starting at 1 — monotonically increasing and always capped at
`max_restart_delay_ms`. -/
theorem C4_backoff_progression :
    crash1.1 = Sup.SupervisorAction.Restart 200 "/p" Sup.EscalationLevel.Level1RestartWithState ∧
    crash2.1 = Sup.SupervisorAction.Restart 400 "/p" Sup.EscalationLevel.Level1RestartWithState ∧
    crash3.1 = Sup.SupervisorAction.Restart 800 "/p" Sup.EscalationLevel.Level1RestartWithState ∧
    (200 : Nat) < 400 ∧ (400 : Nat) < 800 ∧
    (∀ c : Sup.ChildInfo, Sup.calculate_restart_delay c ≤ c.spec.max_restart_delay_ms) := by
  refine ⟨by decide, by decide, by decide, by decide, by decide, ?_⟩
  intro c
  exact Nat.min_le_left _ _

/-- C8: with `max_entries = 5`, after 10 appends the log holds exactly the 5
entries with sequences 6..10, the sequence counter stands at 10, and any
append to any log (trimmed or not) assigns sequence `log.sequence + 1` to
the new entry and to the updated counter. -/
theorem C8_bounded_retention :
    (Audit.get_all_entries logC8).map (fun e => e.sequence) = [6, 7, 8, 9, 10] ∧
    (Audit.get_all_entries logC8).length = 5 ∧
    logC8.sequence = 10 ∧
    (∀ (log : Audit.AuditLog) (ev : Audit.AuditEventType) (src : String) (now : Nat),
      (Audit.append log ev src now).2.sequence = log.sequence + 1 ∧
      (Audit.append log ev src now).1.sequence = log.sequence + 1) := by
  refine ⟨by decide, by decide, by decide, ?_⟩
  intro log ev src now
  exact ⟨rfl, rfl⟩

/-- C7: checksum failure is atomic. When the SHA-256 of the payload does not
match the descriptor digest, `launch_module` returns the checksum-mismatch
error and leaves the kernel state — registry and audit log — exactly as it
was (no handle registered, no ModuleLoaded event); and on any failure
outcome whatsoever the registry is unchanged, since registration is the
final step. -/
theorem C7_checksum_atomic :
    (∀ (st : Kern.KernelState) (config : Kern.ExecutionConfig)
       (verifier : Option (Except String Unit)) (manifest : Kern.ModuleManifest)
       (module_bytes : List Nat) (module_new instantiate : Except String Unit) (now : Nat),
      Sha.sha256hex module_bytes ≠ manifest.checksum →
      Kern.launch_module st config verifier manifest module_bytes module_new instantiate now =
        (Except.error ("Checksum mismatch: expected " ++ manifest.checksum ++ ", got " ++
          Sha.sha256hex module_bytes), st)) ∧
    (∀ (st : Kern.KernelState) (config : Kern.ExecutionConfig)
       (verifier : Option (Except String Unit)) (manifest : Kern.ModuleManifest)
       (module_bytes : List Nat) (module_new instantiate : Except String Unit) (now : Nat)
       (e : String),
      (Kern.launch_module st config verifier manifest module_bytes module_new
        instantiate now).1 = Except.error e →
      (Kern.launch_module st config verifier manifest module_bytes module_new
        instantiate now).2.registry = st.registry) := by
  constructor
  · intro st config verifier manifest module_bytes module_new instantiate now h
    simp only [Kern.launch_module, Kern.verify_checksum]
    rw [if_pos h]
  · intro st config verifier manifest module_bytes module_new instantiate now e h
    cases hv : Kern.verify_checksum module_bytes manifest.checksum with
    | error e1 => simp [Kern.launch_module, hv]
    | ok u =>
      cases u
      cases hs : Kern.verify_signature config verifier manifest with
      | error e2 => simp [Kern.launch_module, hv, hs]
      | ok u2 =>
        cases u2
        cases module_new with
        | error e3 => simp [Kern.launch_module, hv, hs]
        | ok u3 =>
          cases u3
          cases instantiate with
          | error e4 => simp [Kern.launch_module, hv, hs]
          | ok u4 =>
            cases u4
            simp [Kern.launch_module, hv, hs] at h

/-- C10: `record_usage` performs no validity checks. A malformed token fails
with `InvalidToken`, an absent id fails with `NotFound` carrying the token,
and for any id present in the table it increments `use_count` and returns
`Ok` unconditionally — no revocation, expiry or usage-limit check appears in
any hypothesis, so the count grows past `max_uses`, past expiry, and on
revoked capabilities alike. -/
theorem C10_record_usage_unchecked :
    (∀ (s : Caps.CapState) (token : String),
      Caps.capability_id token = none →
      Caps.record_usage s token = Except.error Caps.CapabilityError.InvalidToken) ∧
    (∀ (s : Caps.CapState) (token : String) (cap_id : Nat),
      Caps.capability_id token = some cap_id →
      Caps.findCap s.capabilities cap_id = none →
      Caps.record_usage s token = Except.error (Caps.CapabilityError.NotFound token)) ∧
    (∀ (s : Caps.CapState) (token : String) (cap_id : Nat) (cap : Caps.Capability),
      Caps.capability_id token = some cap_id →
      Caps.findCap s.capabilities cap_id = some cap →
      Caps.record_usage s token =
        Except.ok ({ s with
          capabilities := Caps.updateMap cap_id Caps.bumpUse s.capabilities })) := by
  refine ⟨?_, ?_, ?_⟩
  · intro s token h
    simp [Caps.record_usage, h]
  · intro s token cap_id h hf
    simp [Caps.record_usage, h, hf]
  · intro s token cap_id cap h hf
    simp [Caps.record_usage, h, hf]

/-- C10 witness: id 7 holds a capability that is revoked, expired (expiry 5,
while usage is recorded at time 10 in the real flow), and already at its
usage limit (`use_count = 1 = max_uses`); `record_usage` still succeeds and
pushes `use_count` to 2, strictly past `max_uses`. -/
theorem C10_record_usage_unchecked_witness :
    Caps.record_usage stC10 tokC10 =
      Except.ok ({ stC10 with
        capabilities := Caps.updateMap 7 Caps.bumpUse stC10.capabilities }) ∧
    capC10.revoked = true ∧
    capC10.validity.max_uses = some 1 ∧
    (Caps.bumpUse capC10).validity.use_count = 2 :=
  ⟨C10_record_usage_unchecked.2.2 stC10 tokC10 7 capC10 (by decide) (by decide),
   by decide, by decide, by decide⟩

/-- C9: restart strategies. A `Transient` child crashed with reason
`"normal"` or `"shutdown"` is terminated with a `Stop` action (no restart);
a `Transient` child with any other reason, while the restart limit within
the open window is not exceeded, gets a `Restart` action; a `Temporary`
child always gets `Stop`. -/
theorem C9_transient_restart_policy :
    (∀ (c : Sup.ChildInfo) (error : String) (now : Nat),
      c.spec.restart = Sup.RestartStrategy.Transient →
      (error = "normal" ∨ error = "shutdown") →
      Sup.report_crash c error now =
        (Sup.SupervisorAction.Stop,
         { (Sup.crashBump c error now) with state := Sup.ChildState.Terminated })) ∧
    (∀ (c : Sup.ChildInfo) (error : String) (now : Nat),
      c.spec.restart = Sup.RestartStrategy.Transient →
      error ≠ "normal" → error ≠ "shutdown" →
      Sup.restart_limit_exceeded (Sup.windowPrep (Sup.crashBump c error now) now) now = false →
      (Sup.report_crash c error now).1.isRestart = true) ∧
    (∀ (c : Sup.ChildInfo) (error : String) (now : Nat),
      c.spec.restart = Sup.RestartStrategy.Temporary →
      Sup.report_crash c error now =
        (Sup.SupervisorAction.Stop,
         { (Sup.crashBump c error now) with
             state := Sup.ChildState.Stopped "Temporary strategy - no restart" })) := by
  refine ⟨?_, ?_, ?_⟩
  · intro c error now h hn
    have hspec : (Sup.crashBump c error now).spec.restart = Sup.RestartStrategy.Transient := h
    have hb : (error == "normal" || error == "shutdown") = true := by
      rcases hn with rfl | rfl <;> simp
    simp [Sup.report_crash, hspec, hb]
  · intro c error now h hn hs hlim
    have hspec : (Sup.crashBump c error now).spec.restart = Sup.RestartStrategy.Transient := h
    have hb : (error == "normal" || error == "shutdown") = false := by
      simp [hn, hs]
    simp [Sup.report_crash, hspec, hb, Sup.reportCrashRestartPath, hlim,
      Sup.restartWith, Sup.SupervisorAction.isRestart]
  · intro c error now h
    have hspec : (Sup.crashBump c error now).spec.restart = Sup.RestartStrategy.Temporary := h
    simp [Sup.report_crash, hspec]

/-- C9 witness: a fresh transient child stopped on `"normal"`, restarted on
`"boom"`, and a fresh temporary child stopped on any error. -/
theorem C9_transient_restart_policy_witness :
    Sup.report_crash childTransient "normal" 0 =
      (Sup.SupervisorAction.Stop,
       { (Sup.crashBump childTransient "normal" 0) with state := Sup.ChildState.Terminated }) ∧
    (Sup.report_crash childTransient "boom" 0).1.isRestart = true ∧
    Sup.report_crash childTemporary "boom" 0 =
      (Sup.SupervisorAction.Stop,
       { (Sup.crashBump childTemporary "boom" 0) with
           state := Sup.ChildState.Stopped "Temporary strategy - no restart" }) :=
  ⟨C9_transient_restart_policy.1 childTransient "normal" 0 (by decide) (Or.inl rfl),
   C9_transient_restart_policy.2.1 childTransient "boom" 0 (by decide) (by decide) (by decide)
     (by decide),
   C9_transient_restart_policy.2.2 childTemporary "boom" 0 (by decide)⟩

theorem Caps.is_valid_ok_inv {cap : Caps.Capability} {now : Nat}
    (h : cap.is_valid now = Except.ok ()) :
    cap.revoked = false ∧ (∀ e, cap.validity.expires_at = some e → now ≤ e) ∧
      (∀ m, cap.validity.max_uses = some m → cap.validity.use_count < m) := by
  unfold Caps.Capability.is_valid at h
  split_ifs at h with h1 h2 h3
  refine ⟨by simpa using h1, ?_, ?_⟩
  · intro e he
    rw [he] at h2
    rw [Nat.blt_eq] at h2
    omega
  · intro m hm
    rw [hm] at h3
    rw [Nat.ble_eq] at h3
    omega

theorem Caps.validate_ok_inv {s : Caps.CapState} {token : String}
    {R : List Caps.CapabilityRight} {now : Nat} {cap : Caps.Capability}
    (h : Caps.validate s token R now = Except.ok cap) :
    ∃ cap_id, Caps.capability_id token = some cap_id ∧
      s.revocations.contains cap_id = false ∧
      Caps.findCap s.capabilities cap_id = some cap ∧
      cap.is_valid now = Except.ok () ∧
      (R.filter (fun r => !(cap.has_right r))).map Caps.CapabilityRight.as_str = [] := by
  unfold Caps.validate at h
  cases hp : Caps.capability_id token with
  | none => rw [hp] at h; exact absurd h (by simp)
  | some cap_id =>
    simp only [hp] at h
    refine ⟨cap_id, rfl, ?_⟩
    by_cases hrev : s.revocations.contains cap_id = true
    · rw [if_pos hrev] at h; exact absurd h (by simp)
    · rw [if_neg hrev] at h
      cases hf : Caps.findCap s.capabilities cap_id with
      | none => rw [hf] at h; exact absurd h (by simp)
      | some c =>
        simp only [hf] at h
        cases hv : c.is_valid now with
        | error e => simp only [hv] at h; exact absurd h (by simp)
        | ok u =>
          cases u
          simp only [hv] at h
          by_cases hm : (List.filter (fun r => !(c.has_right r)) R).map
              Caps.CapabilityRight.as_str ≠ []
          · rw [if_pos hm] at h; exact absurd h (by simp)
          · rw [if_neg hm] at h
            have hc : c = cap := Except.ok.inj h
            subst hc
            refine ⟨by simpa using hrev, rfl, hv, ?_⟩
            simpa using hm

/-- C5: validation conditions and error mapping. `validate(token, R)` returns
a snapshot only when the id is outside the manager revocation set, the
capability is found, its `revoked` flag is unset, `now ≤ expires_at` when
set, `use_count < max_uses` when set, and every right of `R` is held.
Each violated condition yields the matching error: membership in the
revocation set yields `Revoked` before the capability is even looked up
(hence before the per-capability flag), the set `revoked` flag yields
`Revoked`, expiry yields `Expired`, the usage limit yields
`UsageLimitExceeded`, and missing rights yield `InsufficientRights`
carrying exactly the missing rights as `required` and the capability's
rights as `actual`. -/
theorem C5_validate_conditions :
    (∀ (s : Caps.CapState) (token : String) (R : List Caps.CapabilityRight) (now : Nat)
       (cap : Caps.Capability),
      Caps.validate s token R now = Except.ok cap →
      (∃ cap_id, Caps.capability_id token = some cap_id ∧
        s.revocations.contains cap_id = false ∧
        Caps.findCap s.capabilities cap_id = some cap) ∧
      cap.revoked = false ∧
      (∀ e, cap.validity.expires_at = some e → now ≤ e) ∧
      (∀ m, cap.validity.max_uses = some m → cap.validity.use_count < m) ∧
      (∀ r ∈ R, cap.has_right r = true)) ∧
    (∀ (s : Caps.CapState) (token : String) (R : List Caps.CapabilityRight) (now cap_id : Nat),
      Caps.capability_id token = some cap_id →
      s.revocations.contains cap_id = true →
      Caps.validate s token R now = Except.error Caps.CapabilityError.Revoked) ∧
    (∀ (s : Caps.CapState) (token : String) (R : List Caps.CapabilityRight) (now cap_id : Nat)
       (cap : Caps.Capability),
      Caps.capability_id token = some cap_id →
      s.revocations.contains cap_id = false →
      Caps.findCap s.capabilities cap_id = some cap →
      cap.revoked = true →
      Caps.validate s token R now = Except.error Caps.CapabilityError.Revoked) ∧
    (∀ (s : Caps.CapState) (token : String) (R : List Caps.CapabilityRight) (now cap_id : Nat)
       (cap : Caps.Capability) (e : Nat),
      Caps.capability_id token = some cap_id →
      s.revocations.contains cap_id = false →
      Caps.findCap s.capabilities cap_id = some cap →
      cap.revoked = false →
      cap.validity.expires_at = some e → e < now →
      Caps.validate s token R now = Except.error Caps.CapabilityError.Expired) ∧
    (∀ (s : Caps.CapState) (token : String) (R : List Caps.CapabilityRight) (now cap_id : Nat)
       (cap : Caps.Capability) (m : Nat),
      Caps.capability_id token = some cap_id →
      s.revocations.contains cap_id = false →
      Caps.findCap s.capabilities cap_id = some cap →
      cap.revoked = false →
      (∀ e, cap.validity.expires_at = some e → now ≤ e) →
      cap.validity.max_uses = some m → m ≤ cap.validity.use_count →
      Caps.validate s token R now = Except.error Caps.CapabilityError.UsageLimitExceeded) ∧
    (∀ (s : Caps.CapState) (token : String) (R : List Caps.CapabilityRight) (now cap_id : Nat)
       (cap : Caps.Capability),
      Caps.capability_id token = some cap_id →
      s.revocations.contains cap_id = false →
      Caps.findCap s.capabilities cap_id = some cap →
      cap.is_valid now = Except.ok () →
      (R.filter (fun r => !(cap.has_right r))).map Caps.CapabilityRight.as_str ≠ [] →
      Caps.validate s token R now =
        Except.error (Caps.CapabilityError.InsufficientRights
          ((R.filter (fun r => !(cap.has_right r))).map Caps.CapabilityRight.as_str)
          (cap.rights.map (fun r => r.as_str)))) := by
  refine ⟨?_, ?_, ?_, ?_, ?_, ?_⟩
  · intro s token R now cap cap_ok
    obtain ⟨cap_id, hp, hrev, hf, hv, hmiss⟩ := Caps.validate_ok_inv cap_ok
    obtain ⟨hrevoked, hexp, huse⟩ := Caps.is_valid_ok_inv hv
    refine ⟨⟨cap_id, hp, hrev, hf⟩, hrevoked, hexp, huse, ?_⟩
    intro r hr
    by_contra hno
    have : r ∈ R.filter (fun r => !(cap.has_right r)) :=
      List.mem_filter.mpr ⟨hr, by simp [hno]⟩
    have : Caps.CapabilityRight.as_str r ∈
        (R.filter (fun r => !(cap.has_right r))).map Caps.CapabilityRight.as_str :=
      List.mem_map.mpr ⟨r, this, rfl⟩
    rw [hmiss] at this
    exact absurd this (List.not_mem_nil _)
  · intro s token R now cap_id hp hrev
    have hm : cap_id ∈ s.revocations := by simpa using hrev
    simp [Caps.validate, hp, hm]
  · intro s token R now cap_id cap hp hrev hf hflag
    have hm : cap_id ∉ s.revocations := by simpa using hrev
    simp [Caps.validate, hp, hm, hf, Caps.Capability.is_valid, hflag]
  · intro s token R now cap_id cap e hp hrev hf hflag hexp hlt
    have hm : cap_id ∉ s.revocations := by simpa using hrev
    have hb : (match cap.validity.expires_at with
               | some expires_at => Nat.blt expires_at now
               | none => false) = true := by
      rw [hexp]
      rw [Nat.blt_eq]
      exact hlt
    simp [Caps.validate, hp, hm, hf, Caps.Capability.is_valid, hflag, hb]
  · intro s token R now cap_id cap m hp hrev hf hflag hexp hmax hle
    have hm : cap_id ∉ s.revocations := by simpa using hrev
    have hb2 : (match cap.validity.expires_at with
                | some expires_at => Nat.blt expires_at now
                | none => false) = false := by
      cases he : cap.validity.expires_at with
      | none => rfl
      | some e =>
        have hle2 := hexp e he
        have hnot : ¬ (Nat.blt e now = true) := by rw [Nat.blt_eq]; omega
        simpa using Bool.eq_false_iff.mpr hnot
    have hb3 : (match cap.validity.max_uses with
                | some max_uses => Nat.ble max_uses cap.validity.use_count
                | none => false) = true := by
      rw [hmax]
      rw [Nat.ble_eq]
      exact hle
    simp [Caps.validate, hp, hm, hf, Caps.Capability.is_valid, hflag, hb2, hb3]
  · intro s token R now cap_id cap hp hrev hf hv hmiss
    have hm : cap_id ∉ s.revocations := by simpa using hrev
    simp [Caps.validate, hp, hm, hf, hv, hmiss]

/-- C5 witness: the fresh C1 capability validates successfully and satisfies
every success condition; the revoked C2 parent id is refused with `Revoked`
from the manager revocation set. -/
theorem C5_validate_conditions_witness :
    ((∃ cap_id, Caps.capability_id tokenC1 = some cap_id ∧
        stC1.revocations.contains cap_id = false ∧
        Caps.findCap stC1.capabilities cap_id = some capLitC1) ∧
     capLitC1.revoked = false ∧
     (∀ e, capLitC1.validity.expires_at = some e → 0 ≤ e) ∧
     (∀ m, capLitC1.validity.max_uses = some m → capLitC1.validity.use_count < m) ∧
     (∀ r ∈ [Caps.CapabilityRight.Read], capLitC1.has_right r = true)) ∧
    Caps.validate stC2 tokenP [Caps.CapabilityRight.Read] 0 =
      Except.error Caps.CapabilityError.Revoked :=
  ⟨C5_validate_conditions.1 stC1 tokenC1 [Caps.CapabilityRight.Read] 0 capLitC1 (by decide),
   C5_validate_conditions.2.1 stC2 tokenP [Caps.CapabilityRight.Read] 0 1 (by decide) (by decide)⟩

theorem Audit.lastHashFrom_cons (a : String) (x : Audit.AuditEntry)
    (xs : List Audit.AuditEntry) :
    Audit.lastHashFrom a (x :: xs) = Audit.lastHashFrom x.hash xs := rfl

theorem Audit.lastHashFrom_snoc (a : String) (l : List Audit.AuditEntry)
    (e : Audit.AuditEntry) :
    Audit.lastHashFrom a (l ++ [e]) = e.hash := by
  induction l generalizing a with
  | nil => rfl
  | cons x xs ih => exact ih x.hash

theorem Audit.chainFrom_snoc (a : String) (l : List Audit.AuditEntry)
    (e : Audit.AuditEntry) :
    Audit.chainFrom a (l ++ [e]) = true ↔
      (Audit.chainFrom a l = true ∧ e.verify = true ∧
        e.prev_hash = Audit.lastHashFrom a l) := by
  induction l generalizing a with
  | nil =>
    have hL : Audit.chainFrom a ([] ++ [e]) =
        (e.verify && (e.prev_hash == a) && Audit.chainFrom e.hash []) := rfl
    rw [hL]
    simp [Audit.chainFrom, Audit.lastHashFrom, Bool.and_eq_true, beq_iff_eq]
  | cons x xs ih =>
    have hL : Audit.chainFrom a ((x :: xs) ++ [e]) =
        (x.verify && (x.prev_hash == a) && Audit.chainFrom x.hash (xs ++ [e])) := rfl
    have hR : Audit.chainFrom a (x :: xs) =
        (x.verify && (x.prev_hash == a) && Audit.chainFrom x.hash xs) := rfl
    rw [hL, hR, Audit.lastHashFrom_cons]
    simp only [Bool.and_eq_true]
    rw [ih x.hash]
    exact ⟨fun h => ⟨⟨h.1, h.2.1⟩, h.2.2.1, h.2.2.2⟩,
           fun h => ⟨h.1.1, h.1.2, h.2.1, h.2.2⟩⟩

theorem Audit.verifyChainGo_valid (l : List Audit.AuditEntry) :
    ∀ (total : Nat) (prev : String), Audit.chainFrom prev l = true →
      (Audit.verifyChainGo total prev l).valid = true := by
  induction l with
  | nil => intro t p _; rfl
  | cons e rest ih =>
    intro t p h
    have h2 : e.verify = true ∧ e.prev_hash = p ∧ Audit.chainFrom e.hash rest = true := by
      simpa [Audit.chainFrom, Bool.and_eq_true, beq_iff_eq, and_assoc] using h
    have hstep : Audit.verifyChainGo t p (e :: rest) =
        if !e.verify then
          { valid := false, entries_checked := e.sequence, first_invalid := some e.sequence }
        else if e.prev_hash ≠ p then
          { valid := false, entries_checked := e.sequence, first_invalid := some e.sequence }
        else Audit.verifyChainGo t e.hash rest := rfl
    rw [hstep]
    simp only [h2.1, h2.2.1, Bool.not_true, Bool.false_eq_true, if_false, ne_eq,
      not_true_eq_false]
    exact ih t e.hash h2.2.2

theorem Audit.append_inv (log : Audit.AuditLog) (ev : Audit.AuditEventType) (src : String)
    (now : Nat)
    (h1 : Audit.chainFrom Audit.genesisHash log.entries = true)
    (h2 : log.last_hash = Audit.lastHashFrom Audit.genesisHash log.entries)
    (hlen : log.entries.length < log.config.max_entries) :
    Audit.chainFrom Audit.genesisHash (Audit.append log ev src now).2.entries = true ∧
      (Audit.append log ev src now).2.last_hash =
        Audit.lastHashFrom Audit.genesisHash (Audit.append log ev src now).2.entries ∧
      (Audit.append log ev src now).2.entries.length = log.entries.length + 1 ∧
      (Audit.append log ev src now).2.config = log.config := by
  have hno : ¬ (log.entries.length ≥ log.config.max_entries) := by omega
  unfold Audit.append
  simp only [if_neg hno]
  refine ⟨?_, ?_, ?_, ?_⟩
  · rw [Audit.chainFrom_snoc]
    refine ⟨h1, ?_, by simpa using h2⟩
    simp [Audit.AuditEntry.verify]
  · rw [Audit.lastHashFrom_snoc]
  · simp
  · trivial

theorem Audit.appendMany_inv (events : List (Audit.AuditEventType × String × Nat)) :
    ∀ (log : Audit.AuditLog),
      Audit.chainFrom Audit.genesisHash log.entries = true →
      log.last_hash = Audit.lastHashFrom Audit.genesisHash log.entries →
      log.entries.length + events.length ≤ log.config.max_entries →
      Audit.chainFrom Audit.genesisHash (Audit.appendMany log events).entries = true ∧
        (Audit.appendMany log events).entries.length =
          log.entries.length + events.length := by
  induction events with
  | nil => intro log h1 _ _; exact ⟨h1, by simp [Audit.appendMany]⟩
  | cons ev rest ih =>
    intro log h1 h2 hlen
    have hlt : log.entries.length < log.config.max_entries := by
      simp only [List.length_cons] at hlen
      omega
    obtain ⟨g1, g2, g3, g4⟩ := Audit.append_inv log ev.1 ev.2.1 ev.2.2 h1 h2 hlt
    have hstep : Audit.appendMany log (ev :: rest) =
        Audit.appendMany (Audit.append log ev.1 ev.2.1 ev.2.2).2 rest := rfl
    rw [hstep]
    have hlen2 : (Audit.append log ev.1 ev.2.1 ev.2.2).2.entries.length + rest.length ≤
        (Audit.append log ev.1 ev.2.1 ev.2.2).2.config.max_entries := by
      rw [g3, g4]
      simp only [List.length_cons] at hlen
      omega
    obtain ⟨f1, f2⟩ := ih _ g1 g2 hlen2
    refine ⟨f1, ?_⟩
    rw [f2, g3]
    simp only [List.length_cons]
    omega

/-- C3 counterexample: a bounded log with `max_entries = 2` receives three
untampered appends; every surviving entry still recomputes its own hash,
yet `verify_chain` reports the chain invalid at the oldest surviving entry
(sequence 2), because the walk anchors at the genesis hash rather than
accepting the oldest entry's `prev_hash`. -/
theorem C3_counterexample :
    logC3.config.max_entries = 2 ∧
    logC3.sequence = 3 ∧
    (logC3.entries.all Audit.AuditEntry.verify) = true ∧
    Audit.verify_chain logC3 =
      { valid := false, entries_checked := 2, first_invalid := some 2 } := by
  decide

/-- C3 amended: `verify_chain` always anchors at the genesis hash, so a
sequence of at most `max_entries` untampered appends verifies as valid, but
once the ring trims (more appends than `max_entries`) the surviving head's
`prev_hash` is the hash of a dropped entry, not the genesis hash, and
`verify_chain` reports invalid at the oldest surviving sequence — trimming
DOES invalidate the chain as `verify_chain` judges it. -/
theorem C3_genesis_anchored_verification :
    (∀ (config : Audit.AuditLogConfig) (events : List (Audit.AuditEventType × String × Nat)),
      events.length ≤ config.max_entries →
      (Audit.verify_chain (Audit.appendMany (Audit.AuditLog.new config) events)).valid =
        true) ∧
    Audit.verify_chain logC3 =
      { valid := false, entries_checked := 2, first_invalid := some 2 } := by
  constructor
  · intro config events hlen
    obtain ⟨hchain, -⟩ := Audit.appendMany_inv events (Audit.AuditLog.new config) rfl rfl
      (by simpa [Audit.AuditLog.new] using hlen)
    unfold Audit.verify_chain
    by_cases he : (Audit.appendMany (Audit.AuditLog.new config) events).entries.isEmpty
    · rw [if_pos he]
    · rw [if_neg he]
      exact Audit.verifyChainGo_valid _ _ _ hchain
  · decide

/-- C3 witness for the no-trim part: two appends into a ring of capacity 2
verify as valid. -/
theorem C3_genesis_anchored_verification_witness :
    ([evA 0, evA 1].length ≤ 2) ∧
    (Audit.verify_chain (Audit.appendMany
      (Audit.AuditLog.new { max_entries := 2, verbose := false })
      [evA 0, evA 1])).valid = true :=
  ⟨by decide,
   C3_genesis_anchored_verification.1 { max_entries := 2, verbose := false }
     [evA 0, evA 1] (by decide)⟩

theorem Caps.findCap_cons (p : Nat × Caps.Capability) (rest : List (Nat × Caps.Capability))
    (i : Nat) :
    Caps.findCap (p :: rest) i = if p.1 = i then some p.2 else Caps.findCap rest i := rfl

theorem Caps.findCap_filter_ne (k i : Nat) (l : List (Nat × Caps.Capability)) (h : i ≠ k) :
    Caps.findCap (l.filter (fun p => p.1 ≠ k)) i = Caps.findCap l i := by
  induction l with
  | nil => rfl
  | cons p rest ih =>
    by_cases hp : p.1 = k
    · have hd : decide (p.1 ≠ k) = false := by simp [hp]
      have hni : ¬ (p.1 = i) := by rw [hp]; exact fun hh => h hh.symm
      rw [List.filter_cons]
      simp only [hd, Bool.false_eq_true, if_false]
      rw [ih, Caps.findCap_cons, if_neg hni]
    · have hd : decide (p.1 ≠ k) = true := by simp [hp]
      rw [List.filter_cons]
      simp only [hd, if_true]
      rw [Caps.findCap_cons, Caps.findCap_cons]
      by_cases hpi : p.1 = i
      · rw [if_pos hpi, if_pos hpi]
      · rw [if_neg hpi, if_neg hpi, ih]

theorem Caps.findCap_insertMap_self (k : Nat) (v : Caps.Capability)
    (l : List (Nat × Caps.Capability)) :
    Caps.findCap (Caps.insertMap k v l) k = some v := by
  unfold Caps.insertMap
  rw [Caps.findCap_cons, if_pos rfl]

theorem Caps.findCap_insertMap_ne (k : Nat) (v : Caps.Capability)
    (l : List (Nat × Caps.Capability)) (i : Nat) (h : i ≠ k) :
    Caps.findCap (Caps.insertMap k v l) i = Caps.findCap l i := by
  unfold Caps.insertMap
  rw [Caps.findCap_cons, if_neg (fun hh => h hh.symm)]
  exact Caps.findCap_filter_ne k i l h

theorem Caps.findCap_updateMap (k : Nat) (f : Caps.Capability → Caps.Capability)
    (l : List (Nat × Caps.Capability)) (i : Nat) :
    Caps.findCap (Caps.updateMap k f l) i =
      if i = k then (Caps.findCap l k).map f else Caps.findCap l i := by
  induction l with
  | nil =>
    simp only [Caps.updateMap, List.map_nil]
    cases hik : decide (i = k) <;> simp [Caps.findCap]
  | cons p rest ih =>
    simp only [Caps.updateMap, List.map_cons] at ih ⊢
    by_cases hik : i = k <;> by_cases hpk : p.1 = k <;> by_cases hpi : p.1 = i <;>
      simp_all [Caps.findCap_cons, Option.map_some']

theorem Caps.revokeFold_shape (ids : List Nat) :
    ∀ (acc : List (Nat × Caps.Capability) × List Nat × Nat) (i : Nat),
      Caps.findCap (ids.foldl Caps.revokeStep acc).1 i = Caps.findCap acc.1 i ∨
      Caps.findCap (ids.foldl Caps.revokeStep acc).1 i =
        (Caps.findCap acc.1 i).map (fun c => { c with revoked := true }) := by
  induction ids with
  | nil => intro acc i; exact Or.inl rfl
  | cons id rest ih =>
    intro acc i
    rw [List.foldl_cons]
    have hstep : Caps.findCap (Caps.revokeStep acc id).1 i = Caps.findCap acc.1 i ∨
        Caps.findCap (Caps.revokeStep acc id).1 i =
          (Caps.findCap acc.1 i).map (fun c => { c with revoked := true }) := by
      unfold Caps.revokeStep
      cases hf : Caps.findCap acc.1 id with
      | none => exact Or.inl rfl
      | some c =>
        simp only
        rw [Caps.findCap_updateMap]
        by_cases hik : i = id
        · subst hik
          rw [if_pos rfl]
          exact Or.inr rfl
        · rw [if_neg hik]
          exact Or.inl rfl
    have hcomp : ((fun c : Caps.Capability => { c with revoked := true }) ∘
        (fun c : Caps.Capability => { c with revoked := true })) =
        (fun c : Caps.Capability => { c with revoked := true }) := funext (fun c => rfl)
    rcases ih (Caps.revokeStep acc id) i with h | h <;> rcases hstep with h2 | h2
    · exact Or.inl (h.trans h2)
    · exact Or.inr (h.trans h2)
    · right
      rw [h, h2]
    · right
      rw [h, h2, Option.map_map, hcomp]

theorem Caps.inv_transfer (l l₂ : List (Nat × Caps.Capability))
    (f : Caps.Capability → Caps.Capability)
    (hid : ∀ c, (f c).id = c.id) (hpar : ∀ c, (f c).parent_id = c.parent_id)
    (hrts : ∀ c, (f c).rights = c.rights)
    (hshape : ∀ i, Caps.findCap l₂ i = Caps.findCap l i ∨
       Caps.findCap l₂ i = (Caps.findCap l i).map f)
    (hKeyed : ∀ i c, Caps.findCap l i = some c → c.id = i)
    (hAtt : ∀ i c pid, Caps.findCap l i = some c → c.parent_id = some pid →
       ∃ pc, Caps.findCap l pid = some pc ∧ ∀ r ∈ c.rights, r ∈ pc.rights) :
    (∀ i c, Caps.findCap l₂ i = some c → c.id = i) ∧
    (∀ i c pid, Caps.findCap l₂ i = some c → c.parent_id = some pid →
       ∃ pc, Caps.findCap l₂ pid = some pc ∧ ∀ r ∈ c.rights, r ∈ pc.rights) := by
  have hbase : ∀ i c, Caps.findCap l₂ i = some c →
      ∃ c0, Caps.findCap l i = some c0 ∧ c.id = c0.id ∧
        c.parent_id = c0.parent_id ∧ c.rights = c0.rights := by
    intro i c hc
    rcases hshape i with hs | hs
    · exact ⟨c, hs ▸ hc, rfl, rfl, rfl⟩
    · rw [hs] at hc
      cases hf : Caps.findCap l i with
      | none => rw [hf] at hc; simp at hc
      | some c0 =>
        rw [hf, Option.map_some'] at hc
        obtain rfl := (Option.some.inj hc).symm
        exact ⟨c0, rfl, hid c0, hpar c0, hrts c0⟩
  constructor
  · intro i c hc
    obtain ⟨c0, hf0, hideq, -, -⟩ := hbase i c hc
    rw [hideq]
    exact hKeyed i c0 hf0
  · intro i c pid hc hp
    obtain ⟨c0, hf0, -, hpeq, hreq⟩ := hbase i c hc
    obtain ⟨pc, hpc, hsub⟩ := hAtt i c0 pid hf0 (by rw [← hpeq]; exact hp)
    rcases hshape pid with hs | hs
    · refine ⟨pc, by rw [hs]; exact hpc, ?_⟩
      rw [hreq]
      exact hsub
    · refine ⟨f pc, by rw [hs, hpc, Option.map_some'], ?_⟩
      rw [hreq, hrts]
      exact hsub

theorem Caps.inv_insert (l : List (Nat × Caps.Capability)) (id₀ : Nat) (cap₀ : Caps.Capability)
    (hfresh : Caps.findCap l id₀ = none)
    (hid : cap₀.id = id₀)
    (hKeyed : ∀ i c, Caps.findCap l i = some c → c.id = i)
    (hAtt : ∀ i c pid, Caps.findCap l i = some c → c.parent_id = some pid →
       ∃ pc, Caps.findCap l pid = some pc ∧ ∀ r ∈ c.rights, r ∈ pc.rights)
    (hpar : ∀ pid, cap₀.parent_id = some pid →
       ∃ pc, Caps.findCap l pid = some pc ∧ ∀ r ∈ cap₀.rights, r ∈ pc.rights) :
    (∀ i c, Caps.findCap (Caps.insertMap id₀ cap₀ l) i = some c → c.id = i) ∧
    (∀ i c pid, Caps.findCap (Caps.insertMap id₀ cap₀ l) i = some c →
       c.parent_id = some pid →
       ∃ pc, Caps.findCap (Caps.insertMap id₀ cap₀ l) pid = some pc ∧
         ∀ r ∈ c.rights, r ∈ pc.rights) := by
  have hne : ∀ j pc, Caps.findCap l j = some pc → j ≠ id₀ := by
    intro j pc hj heq
    rw [heq, hfresh] at hj
    cases hj
  constructor
  · intro i c hc
    by_cases hi : i = id₀
    · subst hi
      rw [Caps.findCap_insertMap_self] at hc
      obtain rfl := (Option.some.inj hc).symm
      exact hid
    · rw [Caps.findCap_insertMap_ne _ _ _ _ hi] at hc
      exact hKeyed i c hc
  · intro i c pid hc hp
    by_cases hi : i = id₀
    · subst hi
      rw [Caps.findCap_insertMap_self] at hc
      obtain rfl := (Option.some.inj hc).symm
      obtain ⟨pc, hpc, hsub⟩ := hpar pid hp
      have hpid := hne pid pc hpc
      exact ⟨pc, by rw [Caps.findCap_insertMap_ne _ _ _ _ hpid]; exact hpc, hsub⟩
    · rw [Caps.findCap_insertMap_ne _ _ _ _ hi] at hc
      obtain ⟨pc, hpc, hsub⟩ := hAtt i c pid hc hp
      have hpid := hne pid pc hpc
      exact ⟨pc, by rw [Caps.findCap_insertMap_ne _ _ _ _ hpid]; exact hpc, hsub⟩

theorem Caps.create_capability_state (s : Caps.CapState) (rt : Caps.ResourceType)
    (rid : String) (rights : List Caps.CapabilityRight) (owner : String)
    (validity : Caps.CapabilityValidity) (now : Nat) :
    (Caps.create_capability s rt rid rights owner validity now).2 =
      { s with next_id := s.next_id + 1,
               capabilities := Caps.insertMap (Caps.CapabilityId.new s.next_id now)
                 { id := Caps.CapabilityId.new s.next_id now, resource_type := rt,
                   resource_id := rid, rights := rights, owner := owner, parent_id := none,
                   validity := validity, revoked := false, created_at := now }
                 s.capabilities,
               tokens := Caps.insertTok
                 (Caps.tokenNew (Caps.CapabilityId.new s.next_id now) s.secret)
                 (Caps.CapabilityId.new s.next_id now) s.tokens } := rfl

theorem Caps.delegate_ok_inv {s : Caps.CapState} {token new_owner : String}
    {rights : List Caps.CapabilityRight} {validity : Caps.CapabilityValidity} {now : Nat}
    {t : String} {s₂ : Caps.CapState}
    (h : Caps.delegate s token new_owner rights validity now = Except.ok (t, s₂)) :
    ∃ parent_cap cap_id,
      Caps.validate s token [Caps.CapabilityRight.Delegate] now = Except.ok parent_cap ∧
      Caps.findCap s.capabilities cap_id = some parent_cap ∧
      (∀ r ∈ rights, parent_cap.has_right r = true) ∧
      s₂ = { s with next_id := s.next_id + 1,
                    capabilities := Caps.insertMap (Caps.CapabilityId.new s.next_id now)
                      { id := Caps.CapabilityId.new s.next_id now,
                        resource_type := parent_cap.resource_type,
                        resource_id := parent_cap.resource_id, rights := rights,
                        owner := new_owner, parent_id := some parent_cap.id,
                        validity := validity, revoked := false, created_at := now }
                      s.capabilities,
                    tokens := Caps.insertTok
                      (Caps.tokenNew (Caps.CapabilityId.new s.next_id now) s.secret)
                      (Caps.CapabilityId.new s.next_id now) s.tokens } := by
  unfold Caps.delegate at h
  cases hv : Caps.validate s token [Caps.CapabilityRight.Delegate] now with
  | error e =>
    simp only [hv] at h
    exact absurd h (by simp)
  | ok parent_cap =>
    simp only [hv] at h
    by_cases hinv : rights.filter (fun r => !(parent_cap.has_right r)) ≠ []
    · rw [if_pos hinv] at h
      exact absurd h (by simp)
    · rw [if_neg hinv] at h
      have hpair := Except.ok.inj h
      obtain ⟨cap_id, hp, hrev, hf, hvv, hmiss⟩ := Caps.validate_ok_inv hv
      have hemp : rights.filter (fun r => !(parent_cap.has_right r)) = [] := not_not.mp hinv
      have hforall : ∀ r ∈ rights, parent_cap.has_right r = true := by
        intro r hr
        by_contra hc
        have hmem : r ∈ rights.filter (fun r => !(parent_cap.has_right r)) :=
          List.mem_filter.mpr ⟨hr, by simp [hc]⟩
        rw [hemp] at hmem
        exact absurd hmem (List.not_mem_nil _)
      rw [Prod.mk.injEq] at hpair
      refine ⟨parent_cap, cap_id, rfl, hf, hforall, ?_⟩
      exact hpair.2.symm

theorem Caps.record_usage_ok_inv {s : Caps.CapState} {token : String} {s₂ : Caps.CapState}
    (h : Caps.record_usage s token = Except.ok s₂) :
    ∃ cap_id, s₂ = { s with
      capabilities := Caps.updateMap cap_id Caps.bumpUse s.capabilities } := by
  unfold Caps.record_usage at h
  cases hp : Caps.capability_id token with
  | none =>
    simp only [hp] at h
    exact absurd h (by simp)
  | some cap_id =>
    simp only [hp] at h
    cases hf : Caps.findCap s.capabilities cap_id with
    | none =>
      simp only [hf] at h
      exact absurd h (by simp)
    | some c =>
      simp only [hf] at h
      exact ⟨cap_id, (Except.ok.inj h).symm⟩

theorem Caps.revoke_ok_inv {s : Caps.CapState} {token : String} {n : Nat} {s₂ : Caps.CapState}
    (h : Caps.revoke s token = Except.ok (n, s₂)) :
    ∃ ids : List Nat, s₂.capabilities =
      (List.foldl Caps.revokeStep (s.capabilities, s.revocations, 0) ids).1 := by
  unfold Caps.revoke at h
  cases hp : Caps.capability_id token with
  | none =>
    simp only [hp] at h
    exact absurd h (by simp)
  | some cap_id =>
    simp only [hp] at h
    have hpair := Except.ok.inj h
    rw [Prod.mk.injEq] at hpair
    refine ⟨cap_id :: (s.capabilities.filter
      (fun p => p.2.parent_id == some cap_id)).map (fun p => p.1), ?_⟩
    rw [← hpair.2]

/-- Keyed-by-id plus attenuation hold in every reachable manager state. -/
theorem Caps.reach_keyed_attenuated :
    ∀ s : Caps.CapState, Caps.CapReach s → Caps.KeyedId s ∧ Caps.Attenuated s := by
  intro s h
  induction h with
  | init secret =>
    constructor
    · intro i c hc
      cases hc
    · intro i c pid hc
      cases hc
  | create s rt rid rights owner validity now h hfresh ih =>
    rw [Caps.create_capability_state]
    unfold Caps.KeyedId Caps.Attenuated at ih ⊢
    simp only
    exact Caps.inv_insert s.capabilities _ _ hfresh rfl ih.1 ih.2
      (fun pid hp => by cases hp)
  | delegated s token new_owner rights validity now t s₂ h hfresh hstep ih =>
    obtain ⟨parent_cap, cap_id, hv, hf, hforall, hs2⟩ := Caps.delegate_ok_inv hstep
    have hpid : parent_cap.id = cap_id := ih.1 cap_id parent_cap hf
    subst hs2
    unfold Caps.KeyedId Caps.Attenuated at ih ⊢
    simp only
    refine Caps.inv_insert s.capabilities _ _ hfresh rfl ih.1 ih.2 ?_
    intro pid hp
    simp only at hp
    have hpe : pid = cap_id := by
      rw [hpid] at hp
      exact (Option.some.inj hp).symm
    subst hpe
    refine ⟨parent_cap, hf, ?_⟩
    intro r hr
    have := hforall r hr
    unfold Caps.Capability.has_right at this
    simpa using this
  | revoked s token n s₂ h hstep ih =>
    obtain ⟨ids, hcaps⟩ := Caps.revoke_ok_inv hstep
    unfold Caps.KeyedId Caps.Attenuated at ih ⊢
    rw [hcaps]
    exact Caps.inv_transfer s.capabilities _ (fun c => { c with revoked := true })
      (fun c => rfl) (fun c => rfl) (fun c => rfl)
      (fun i => Caps.revokeFold_shape ids (s.capabilities, s.revocations, 0) i)
      ih.1 ih.2
  | used s token s₂ h hstep ih =>
    obtain ⟨cap_id, hs2⟩ := Caps.record_usage_ok_inv hstep
    subst hs2
    unfold Caps.KeyedId Caps.Attenuated at ih ⊢
    simp only
    refine Caps.inv_transfer s.capabilities _ Caps.bumpUse
      (fun c => rfl) (fun c => rfl) (fun c => rfl) ?_ ih.1 ih.2
    intro i
    rw [Caps.findCap_updateMap]
    by_cases hik : i = cap_id
    · subst hik
      rw [if_pos rfl]
      exact Or.inr rfl
    · rw [if_neg hik]
      exact Or.inl rfl

/-- C6: monotonic attenuation of delegation. When the parent token validates
with the `Delegate` right but the requested rights are not all held by the
parent (the filter of non-held rights is non-empty), `delegate` fails with
`InsufficientRights` carrying those rights; and in every reachable manager
state, every delegated capability's rights are a subset of its parent's. -/
theorem C6_delegation_attenuation :
    (∀ (s : Caps.CapState) (token new_owner : String) (rights : List Caps.CapabilityRight)
       (validity : Caps.CapabilityValidity) (now : Nat) (parent_cap : Caps.Capability),
      Caps.validate s token [Caps.CapabilityRight.Delegate] now = Except.ok parent_cap →
      rights.filter (fun r => !(parent_cap.has_right r)) ≠ [] →
      Caps.delegate s token new_owner rights validity now =
        Except.error (Caps.CapabilityError.InsufficientRights
          ((rights.filter (fun r => !(parent_cap.has_right r))).map
            Caps.CapabilityRight.as_str)
          (parent_cap.rights.map (fun r => r.as_str)))) ∧
    (∀ s : Caps.CapState, Caps.CapReach s → Caps.Attenuated s) := by
  constructor
  · intro s token new_owner rights validity now parent_cap hv hne
    unfold Caps.delegate
    simp only [hv]
    rw [if_pos hne]
  · intro s h
    exact (Caps.reach_keyed_attenuated s h).2

/-- C6 witness: on the concrete chain, delegating `Execute` from the parent
(which lacks it) fails with `InsufficientRights`, and the state reached by
create-then-delegate satisfies the attenuation invariant. -/
theorem C6_delegation_attenuation_witness :
    Caps.delegate mintC2.2 tokenP "o2" [Caps.CapabilityRight.Execute]
        Caps.CapabilityValidity.default 0 =
      Except.error (Caps.CapabilityError.InsufficientRights
        (([Caps.CapabilityRight.Execute].filter
            (fun r => !(capParentC2.has_right r))).map Caps.CapabilityRight.as_str)
        (capParentC2.rights.map (fun r => r.as_str))) ∧
    Caps.Attenuated delA.2 :=
  ⟨C6_delegation_attenuation.1 mintC2.2 tokenP "o2" [Caps.CapabilityRight.Execute]
      Caps.CapabilityValidity.default 0 capParentC2 (by decide) (by decide),
   C6_delegation_attenuation.2 delA.2
     (Caps.CapReach.delegated mintC2.2 tokenP "a"
       [Caps.CapabilityRight.Read, Caps.CapabilityRight.Delegate]
       Caps.CapabilityValidity.default 0 tokenA delA.2
       (Caps.CapReach.create (Caps.CapState.new secretZ) Caps.ResourceType.Module "m"
         [Caps.CapabilityRight.Read, Caps.CapabilityRight.Write,
          Caps.CapabilityRight.Delegate]
         "p" Caps.CapabilityValidity.default 0 (Caps.CapReach.init secretZ) (by decide))
       (by decide) (by decide))⟩

/-- C7 witness: the manifest carrying the checksum of "hello" with the payload
"world" fails with the checksum-mismatch error and leaves the kernel state —
registry and audit log — exactly as before the call. -/
theorem C7_checksum_atomic_witness :
    Kern.launch_module kernSt0 Kern.ExecutionConfig.default none manifestC7
        (Sha.utf8Bytes "world") (Except.ok ()) (Except.ok ()) 0 =
      (Except.error ("Checksum mismatch: expected " ++ manifestC7.checksum ++ ", got " ++
        Sha.sha256hex (Sha.utf8Bytes "world")), kernSt0) ∧
    (Kern.launch_module kernSt0 Kern.ExecutionConfig.default none manifestC7
        (Sha.utf8Bytes "world") (Except.ok ()) (Except.ok ()) 0).2.registry =
      kernSt0.registry :=
  ⟨C7_checksum_atomic.1 kernSt0 Kern.ExecutionConfig.default none manifestC7
      (Sha.utf8Bytes "world") (Except.ok ()) (Except.ok ()) 0 (by decide),
   C7_checksum_atomic.2 kernSt0 Kern.ExecutionConfig.default none manifestC7
      (Sha.utf8Bytes "world") (Except.ok ()) (Except.ok ()) 0
      ("Checksum mismatch: expected " ++ manifestC7.checksum ++ ", got " ++
        Sha.sha256hex (Sha.utf8Bytes "world"))
      (by decide)⟩
